import Mathlib

/-! Alias hooks of the Lambda controller.

A shallow embedding of `pkg/resource/alias/hooks.go`: the two write hooks
(`syncEventInvokeConfig`, `updateProvisionedConcurrency`) and the three read
hooks (`setProvisionedConcurrencyConfig`, `getFunctionEventInvokeConfig`,
`setResourceAdditionalFields`).

Go pointers are `Option` values (`nil` is `none`), a method that mutates `*ko`
returns the mutated value, a nil dereference is the `panicked` outcome, and
every remote call and every `RecordAPICall` is appended to a trace.
-/

namespace LambdaController

/-! ## Errors -/

/-- A Go `error` value: either an AWS SDK error, which carries a code, or any
other error. -/
inductive Error where
  | aws (code : String) (message : String)
  | other (message : String)
  deriving DecidableEq

namespace ackerr

/-- The runtime helper `ackerr.AWSError(err)` followed by `.Code()`: the code of
an AWS error, and `none` where the Go helper answers `ok = false`. -/
def AWSError : Error → Option String
  | .aws code _ => some code
  | .other _ => none

end ackerr

/-! ## The custom-resource types (`apis/v1alpha1`) -/

namespace svcapitypes

/-- Modelled from the spec: the type declaration `OnFailure` of `apis/v1alpha1`,
an optional destination identifier. -/
structure OnFailure where
  Destination : Option String
  deriving DecidableEq

/-- Modelled from the spec: the type declaration `OnSuccess` of `apis/v1alpha1`,
an optional destination identifier. -/
structure OnSuccess where
  Destination : Option String
  deriving DecidableEq

/-- Modelled from the spec: the type declaration `DestinationConfig` of
`apis/v1alpha1`, with optional `OnFailure` and `OnSuccess`. -/
structure DestinationConfig where
  OnFailure : Option OnFailure
  OnSuccess : Option OnSuccess
  deriving DecidableEq

/-- Modelled from the spec: the type declaration of the event-invoke block of
`apis/v1alpha1`, with the three optional fields the spec lists. -/
structure PutFunctionEventInvokeConfigInput where
  DestinationConfig : Option DestinationConfig
  MaximumEventAgeInSeconds : Option Int
  MaximumRetryAttempts : Option Int
  deriving DecidableEq

/-- Modelled from the spec: the type declaration of the provisioned-concurrency
block of `apis/v1alpha1`, a single optional integer. -/
structure PutProvisionedConcurrencyConfigInput where
  ProvisionedConcurrentExecutions : Option Int
  deriving DecidableEq

/-- Modelled from the spec: the type declaration `AliasSpec` of `apis/v1alpha1`:
function identifier, qualifier and the two optional nested blocks. -/
structure AliasSpec where
  FunctionEventInvokeConfig : Option PutFunctionEventInvokeConfigInput
  FunctionName : Option String
  Name : Option String
  ProvisionedConcurrencyConfig : Option PutProvisionedConcurrencyConfigInput
  deriving DecidableEq

/-- Modelled from the spec: the type declaration `Alias` of `apis/v1alpha1`. -/
structure Alias where
  Spec : AliasSpec
  deriving DecidableEq

end svcapitypes

/-! ## The SDK request and response types (`aws-sdk-go/service/lambda`) -/

namespace svcsdk

/-- The SDK type `lambda.OnFailure`. -/
structure OnFailure where
  Destination : Option String
  deriving DecidableEq

/-- The SDK type `lambda.OnSuccess`. -/
structure OnSuccess where
  Destination : Option String
  deriving DecidableEq

/-- The SDK type `lambda.DestinationConfig`. -/
structure DestinationConfig where
  OnFailure : Option OnFailure
  OnSuccess : Option OnSuccess
  deriving DecidableEq

/-- The SDK request `lambda.PutFunctionEventInvokeConfigInput`. -/
structure PutFunctionEventInvokeConfigInput where
  DestinationConfig : Option DestinationConfig
  FunctionName : Option String
  MaximumEventAgeInSeconds : Option Int
  MaximumRetryAttempts : Option Int
  Qualifier : Option String
  deriving DecidableEq

/-- The SDK request `lambda.DeleteProvisionedConcurrencyConfigInput`. -/
structure DeleteProvisionedConcurrencyConfigInput where
  FunctionName : Option String
  Qualifier : Option String
  deriving DecidableEq

/-- The SDK request `lambda.PutProvisionedConcurrencyConfigInput`. -/
structure PutProvisionedConcurrencyConfigInput where
  FunctionName : Option String
  ProvisionedConcurrentExecutions : Option Int
  Qualifier : Option String
  deriving DecidableEq

/-- The SDK request `lambda.GetProvisionedConcurrencyConfigInput`. -/
structure GetProvisionedConcurrencyConfigInput where
  FunctionName : Option String
  Qualifier : Option String
  deriving DecidableEq

/-- The SDK response `lambda.GetProvisionedConcurrencyConfigOutput`: the
allocated, available and requested counts and the status fields. -/
structure GetProvisionedConcurrencyConfigOutput where
  AllocatedProvisionedConcurrentExecutions : Option Int
  AvailableProvisionedConcurrentExecutions : Option Int
  LastModified : Option String
  RequestedProvisionedConcurrentExecutions : Option Int
  Status : Option String
  StatusReason : Option String
  deriving DecidableEq

/-- The SDK request `lambda.GetFunctionEventInvokeConfigInput`. -/
structure GetFunctionEventInvokeConfigInput where
  FunctionName : Option String
  Qualifier : Option String
  deriving DecidableEq

/-- The SDK response `lambda.GetFunctionEventInvokeConfigOutput`. -/
structure GetFunctionEventInvokeConfigOutput where
  DestinationConfig : Option DestinationConfig
  FunctionArn : Option String
  MaximumEventAgeInSeconds : Option Int
  MaximumRetryAttempts : Option Int
  deriving DecidableEq

end svcsdk

/-! ## Remote client, trace and outcomes -/

/-- One remote call with the request it was issued with. -/
inductive Call where
  | PutFunctionEventInvokeConfig (input : svcsdk.PutFunctionEventInvokeConfigInput)
  | DeleteProvisionedConcurrencyConfig (input : svcsdk.DeleteProvisionedConcurrencyConfigInput)
  | PutProvisionedConcurrencyConfig (input : svcsdk.PutProvisionedConcurrencyConfigInput)
  | GetProvisionedConcurrencyConfig (input : svcsdk.GetProvisionedConcurrencyConfigInput)
  | GetFunctionEventInvokeConfig (input : svcsdk.GetFunctionEventInvokeConfigInput)
  deriving DecidableEq

/-- What a hook does to the outside world, in program order: a remote call, or
one `rm.metrics.RecordAPICall(verb, operation, err)`. -/
inductive Event where
  | apiCall (call : Call)
  | RecordAPICall (verb : String) (operation : String) (err : Option Error)
  deriving DecidableEq

/-- The field `rm.sdkapi`: the answer of the remote platform to each request.
The three write calls return `(_, err)` and every caller drops the output, so
only the error is kept; the two reads return the output or the error. -/
structure SdkApi where
  PutFunctionEventInvokeConfigWithContext :
    svcsdk.PutFunctionEventInvokeConfigInput → Option Error
  DeleteProvisionedConcurrencyConfigWithContext :
    svcsdk.DeleteProvisionedConcurrencyConfigInput → Option Error
  PutProvisionedConcurrencyConfigWithContext :
    svcsdk.PutProvisionedConcurrencyConfigInput → Option Error
  GetProvisionedConcurrencyConfigWithContext :
    svcsdk.GetProvisionedConcurrencyConfigInput →
      Except Error svcsdk.GetProvisionedConcurrencyConfigOutput
  GetFunctionEventInvokeConfigWithContext :
    svcsdk.GetFunctionEventInvokeConfigInput →
      Except Error svcsdk.GetFunctionEventInvokeConfigOutput

/-- The receiver `rm`; its metrics sink is the `RecordAPICall` events of the
trace. -/
structure resourceManager where
  sdkapi : SdkApi

/-- The wrapper `resource` around the custom resource `ko`. -/
structure resource where
  ko : svcapitypes.Alias
  deriving DecidableEq

/-- How a hook ends: it returns a value, or it faults on a nil dereference.
Either way the trace holds what it did until then. -/
inductive Outcome (α : Type) where
  | returned (value : α) (trace : List Event)
  | panicked (trace : List Event)
  deriving DecidableEq

namespace Outcome

/-- The events of an outcome. -/
def trace {α : Type} : Outcome α → List Event
  | .returned _ t => t
  | .panicked t => t

/-- The remote calls of a trace, in order. -/
def callsOf : List Event → List Call
  | [] => []
  | .apiCall c :: rest => c :: callsOf rest
  | .RecordAPICall _ _ _ :: rest => callsOf rest

/-- The remote calls an outcome issued, in order. -/
def calls {α : Type} (o : Outcome α) : List Call :=
  callsOf o.trace

end Outcome

/-- Whether a call is a `DeleteProvisionedConcurrencyConfig`. -/
def Call.isDelete : Call → Bool
  | .DeleteProvisionedConcurrencyConfig _ => true
  | _ => false

/-- Whether a call is a `PutProvisionedConcurrencyConfig`. -/
def Call.isPut : Call → Bool
  | .PutProvisionedConcurrencyConfig _ => true
  | _ => false

/-- What a read hook hands back: its `err` and the target `ko` as it left it. -/
structure ReadResult where
  err : Option Error
  ko : svcapitypes.Alias
  deriving DecidableEq

/-! ## The write hooks -/

/-- Lines 41-64 of `syncEventInvokeConfig`: the optional fields of the request,
copied from `r.ko.Spec.FunctionEventInvokeConfig` one by one. -/
def syncEventInvokeConfigInput (functionName qualifier : String)
    (spec : svcapitypes.AliasSpec) : svcsdk.PutFunctionEventInvokeConfigInput :=
  let input : svcsdk.PutFunctionEventInvokeConfigInput :=
    { DestinationConfig := none
      FunctionName := some functionName
      MaximumEventAgeInSeconds := none
      MaximumRetryAttempts := none
      Qualifier := some qualifier }
  match spec.FunctionEventInvokeConfig with
  | none => input
  | some eic =>
    let input1 : svcsdk.PutFunctionEventInvokeConfigInput :=
      match eic.DestinationConfig with
      | none => input
      | some dc =>
        let destinations : svcsdk.DestinationConfig := { OnFailure := none, OnSuccess := none }
        let destinations1 : svcsdk.DestinationConfig :=
          match dc.OnFailure with
          | none => destinations
          | some onFailure =>
            match onFailure.Destination with
            | none => { destinations with OnFailure := some { Destination := none } }
            | some d => { destinations with OnFailure := some { Destination := some d } }
        let destinations2 : svcsdk.DestinationConfig :=
          match dc.OnSuccess with
          | none => destinations1
          | some onSuccess =>
            match onSuccess.Destination with
            | none => { destinations1 with OnSuccess := some { Destination := none } }
            | some d => { destinations1 with OnSuccess := some { Destination := some d } }
        { input with DestinationConfig := some destinations2 }
    let input2 : svcsdk.PutFunctionEventInvokeConfigInput :=
      match eic.MaximumEventAgeInSeconds with
      | none => input1
      | some age => { input1 with MaximumEventAgeInSeconds := some age }
    match eic.MaximumRetryAttempts with
    | none => input2
    | some attempts => { input2 with MaximumRetryAttempts := some attempts }

/-- The hook `syncEventInvokeConfig`: dereferences `FunctionName` and `Name`,
builds the request, issues the put, records it, and returns `(nil, err)` or
`(r, nil)`. -/
def syncEventInvokeConfig (rm : resourceManager) (r : resource) :
    Outcome (Option resource × Option Error) :=
  match r.ko.Spec.FunctionName with
  | none => .panicked []
  | some functionName =>
    match r.ko.Spec.Name with
    | none => .panicked []
    | some name =>
      let input := syncEventInvokeConfigInput functionName name r.ko.Spec
      let err := rm.sdkapi.PutFunctionEventInvokeConfigWithContext input
      let trace := [Event.apiCall (.PutFunctionEventInvokeConfig input),
        Event.RecordAPICall "UPDATE" "SyncEventInvokeConfig" err]
      match err with
      | some e => .returned (none, some e) trace
      | none => .returned (some r, none) trace

/-- The condition of line 87: the block is nil, or its count is nil. -/
def provisionedConcurrencyRemoved (spec : svcapitypes.AliasSpec) : Bool :=
  match spec.ProvisionedConcurrencyConfig with
  | none => true
  | some pc => pc.ProvisionedConcurrentExecutions.isNone

/-- The hook `updateProvisionedConcurrency`: the delete branch when the
configuration was removed (lines 87-98), the put branch otherwise (lines
100-112). Each branch dereferences `FunctionName` and `Name` before its call. -/
def updateProvisionedConcurrency (rm : resourceManager) (desired : resource) :
    Outcome (Option Error) :=
  if provisionedConcurrencyRemoved desired.ko.Spec then
    match desired.ko.Spec.FunctionName with
    | none => .panicked []
    | some functionName =>
      match desired.ko.Spec.Name with
      | none => .panicked []
      | some name =>
        let input_delete : svcsdk.DeleteProvisionedConcurrencyConfigInput :=
          { FunctionName := some functionName, Qualifier := some name }
        let err := rm.sdkapi.DeleteProvisionedConcurrencyConfigWithContext input_delete
        let trace := [Event.apiCall (.DeleteProvisionedConcurrencyConfig input_delete),
          Event.RecordAPICall "DELETE" "DeleteProvisionedConcurrency" err]
        match err with
        | some e => .returned (some e) trace
        | none => .returned none trace
  else
    match desired.ko.Spec.FunctionName with
    | none => .panicked []
    | some functionName =>
      match desired.ko.Spec.Name with
      | none => .panicked []
      | some name =>
        match desired.ko.Spec.ProvisionedConcurrencyConfig with
        | none => .panicked []
        | some pc =>
          match pc.ProvisionedConcurrentExecutions with
          | none => .panicked []
          | some executions =>
            let input : svcsdk.PutProvisionedConcurrencyConfigInput :=
              { FunctionName := some functionName
                ProvisionedConcurrentExecutions := some executions
                Qualifier := some name }
            let err := rm.sdkapi.PutProvisionedConcurrencyConfigWithContext input
            let trace := [Event.apiCall (.PutProvisionedConcurrencyConfig input),
              Event.RecordAPICall "UPDATE" "UpdateProvisionedConcurrency" err]
            match err with
            | some e => .returned (some e) trace
            | none => .returned none trace

/-! ## The read hooks -/

/-- The test of line 136: the error is an AWS error whose code is
`ProvisionedConcurrencyConfigNotFoundException` or `ResourceNotFoundException`. -/
def provisionedConcurrencyNotFound (err : Error) : Bool :=
  match ackerr.AWSError err with
  | some code =>
    code == "ProvisionedConcurrencyConfigNotFoundException" || code == "ResourceNotFoundException"
  | none => false

/-- The test of line 169: the error is an AWS error whose code is
`EventInvokeConfigNotFoundException` or `ResourceNotFoundException`. -/
def eventInvokeConfigNotFound (err : Error) : Bool :=
  match ackerr.AWSError err with
  | some code =>
    code == "EventInvokeConfigNotFoundException" || code == "ResourceNotFoundException"
  | none => false

/-- The `err` of a read, as handed to `RecordAPICall`. -/
def errOf {α : Type} : Except Error α → Option Error
  | .error e => some e
  | .ok _ => none

/-- The hook `setProvisionedConcurrencyConfig`: reads the configuration keyed by
`ko.Spec.FunctionName` and `ko.Spec.Name`, records the call, and either clears
the block (not found), returns the error, or assigns a fresh block holding the
requested count. -/
def setProvisionedConcurrencyConfig (rm : resourceManager) (ko : svcapitypes.Alias) :
    Outcome ReadResult :=
  let input : svcsdk.GetProvisionedConcurrencyConfigInput :=
    { FunctionName := ko.Spec.FunctionName, Qualifier := ko.Spec.Name }
  let response := rm.sdkapi.GetProvisionedConcurrencyConfigWithContext input
  let trace := [Event.apiCall (.GetProvisionedConcurrencyConfig input),
    Event.RecordAPICall "GET" "GetProvisionedConcurrencyConfig" (errOf response)]
  match response with
  | .error err =>
    if provisionedConcurrencyNotFound err then
      .returned
        { err := none
          ko := { ko with Spec := { ko.Spec with ProvisionedConcurrencyConfig := none } } }
        trace
    else
      .returned { err := some err, ko := ko } trace
  | .ok getProvisionedConcurrencyConfigOutput =>
    let cloudProvisionedConcurrency : svcapitypes.PutProvisionedConcurrencyConfigInput :=
      { ProvisionedConcurrentExecutions :=
          getProvisionedConcurrencyConfigOutput.RequestedProvisionedConcurrentExecutions }
    .returned
      { err := none
        ko := { ko with Spec :=
          { ko.Spec with ProvisionedConcurrencyConfig := some cloudProvisionedConcurrency } } }
      trace

/-- The assignment `ko.Spec.FunctionEventInvokeConfig.DestinationConfig.OnFailure.Destination = d`
of line 178; `none` when one of the three pointers on the way is nil. -/
def assignOnFailureDestination (ko : svcapitypes.Alias) (d : Option String) :
    Option svcapitypes.Alias :=
  match ko.Spec.FunctionEventInvokeConfig with
  | none => none
  | some eic =>
    match eic.DestinationConfig with
    | none => none
    | some dc =>
      match dc.OnFailure with
      | none => none
      | some _ =>
        let dc1 : svcapitypes.DestinationConfig := { dc with OnFailure := some { Destination := d } }
        let eic1 : svcapitypes.PutFunctionEventInvokeConfigInput :=
          { eic with DestinationConfig := some dc1 }
        some { ko with Spec := { ko.Spec with FunctionEventInvokeConfig := some eic1 } }

/-- The assignment `ko.Spec.FunctionEventInvokeConfig.DestinationConfig.OnSuccess.Destination = d`
of line 183; `none` when one of the three pointers on the way is nil. -/
def assignOnSuccessDestination (ko : svcapitypes.Alias) (d : Option String) :
    Option svcapitypes.Alias :=
  match ko.Spec.FunctionEventInvokeConfig with
  | none => none
  | some eic =>
    match eic.DestinationConfig with
    | none => none
    | some dc =>
      match dc.OnSuccess with
      | none => none
      | some _ =>
        let dc1 : svcapitypes.DestinationConfig := { dc with OnSuccess := some { Destination := d } }
        let eic1 : svcapitypes.PutFunctionEventInvokeConfigInput :=
          { eic with DestinationConfig := some dc1 }
        some { ko with Spec := { ko.Spec with FunctionEventInvokeConfig := some eic1 } }

/-- The assignment `ko.Spec.FunctionEventInvokeConfig.DestinationConfig = v` of
line 187; `none` when the block is nil. -/
def assignDestinationConfig (ko : svcapitypes.Alias)
    (v : Option svcapitypes.DestinationConfig) : Option svcapitypes.Alias :=
  match ko.Spec.FunctionEventInvokeConfig with
  | none => none
  | some eic =>
    let eic1 : svcapitypes.PutFunctionEventInvokeConfigInput := { eic with DestinationConfig := v }
    some { ko with Spec := { ko.Spec with FunctionEventInvokeConfig := some eic1 } }

/-- The assignment `ko.Spec.FunctionEventInvokeConfig.MaximumEventAgeInSeconds = v`
of lines 190 and 192; `none` when the block is nil. -/
def assignMaximumEventAgeInSeconds (ko : svcapitypes.Alias) (v : Option Int) :
    Option svcapitypes.Alias :=
  match ko.Spec.FunctionEventInvokeConfig with
  | none => none
  | some eic =>
    let eic1 : svcapitypes.PutFunctionEventInvokeConfigInput := { eic with MaximumEventAgeInSeconds := v }
    some { ko with Spec := { ko.Spec with FunctionEventInvokeConfig := some eic1 } }

/-- The assignment `ko.Spec.FunctionEventInvokeConfig.MaximumRetryAttempts = v`
of lines 195 and 197; `none` when the block is nil. -/
def assignMaximumRetryAttempts (ko : svcapitypes.Alias) (v : Option Int) :
    Option svcapitypes.Alias :=
  match ko.Spec.FunctionEventInvokeConfig with
  | none => none
  | some eic =>
    let eic1 : svcapitypes.PutFunctionEventInvokeConfigInput := { eic with MaximumRetryAttempts := v }
    some { ko with Spec := { ko.Spec with FunctionEventInvokeConfig := some eic1 } }

/-- Lines 175-188: the destinations. -/
def normalizeDestinationConfig (out : svcsdk.GetFunctionEventInvokeConfigOutput)
    (ko : svcapitypes.Alias) : Option svcapitypes.Alias :=
  match out.DestinationConfig with
  | some destinationConfig =>
    let afterOnFailure : Option svcapitypes.Alias :=
      match destinationConfig.OnFailure with
      | some onFailure =>
        match onFailure.Destination with
        | some d => assignOnFailureDestination ko (some d)
        | none => some ko
      | none => some ko
    match afterOnFailure with
    | none => none
    | some ko1 =>
      match destinationConfig.OnSuccess with
      | some onSuccess =>
        match onSuccess.Destination with
        | some d => assignOnSuccessDestination ko1 (some d)
        | none => some ko1
      | none => some ko1
  | none => assignDestinationConfig ko none

/-- Lines 189-193: the maximum event age. -/
def normalizeMaximumEventAgeInSeconds (out : svcsdk.GetFunctionEventInvokeConfigOutput)
    (ko : svcapitypes.Alias) : Option svcapitypes.Alias :=
  match out.MaximumEventAgeInSeconds with
  | some age => assignMaximumEventAgeInSeconds ko (some age)
  | none => assignMaximumEventAgeInSeconds ko none

/-- Lines 194-198: the retry attempts, copied when the response has a
`DestinationConfig`. -/
def normalizeMaximumRetryAttempts (out : svcsdk.GetFunctionEventInvokeConfigOutput)
    (ko : svcapitypes.Alias) : Option svcapitypes.Alias :=
  match out.DestinationConfig with
  | some _ => assignMaximumRetryAttempts ko out.MaximumRetryAttempts
  | none => assignMaximumRetryAttempts ko none

/-- Lines 175-198, the success branch of `getFunctionEventInvokeConfig`: the
three steps in order, `none` as soon as one of them dereferences nil. -/
def normalizeEventInvokeConfig (out : svcsdk.GetFunctionEventInvokeConfigOutput)
    (ko : svcapitypes.Alias) : Option svcapitypes.Alias :=
  match normalizeDestinationConfig out ko with
  | none => none
  | some ko1 =>
    match normalizeMaximumEventAgeInSeconds out ko1 with
    | none => none
    | some ko2 => normalizeMaximumRetryAttempts out ko2

/-- The hook `getFunctionEventInvokeConfig`: reads the configuration keyed by
`ko.Spec.FunctionName` and `ko.Spec.Name`, records the call, and either clears
the block (not found), returns the error, or normalizes the existing block field
by field. -/
def getFunctionEventInvokeConfig (rm : resourceManager) (ko : svcapitypes.Alias) :
    Outcome ReadResult :=
  let input : svcsdk.GetFunctionEventInvokeConfigInput :=
    { FunctionName := ko.Spec.FunctionName, Qualifier := ko.Spec.Name }
  let response := rm.sdkapi.GetFunctionEventInvokeConfigWithContext input
  let trace := [Event.apiCall (.GetFunctionEventInvokeConfig input),
    Event.RecordAPICall "GET" "GetFunctionEventInvokeConfig" (errOf response)]
  match response with
  | .error err =>
    if eventInvokeConfigNotFound err then
      .returned
        { err := none
          ko := { ko with Spec := { ko.Spec with FunctionEventInvokeConfig := none } } }
        trace
    else
      .returned { err := some err, ko := ko } trace
  | .ok getFunctionEventInvokeConfigOutput =>
    match normalizeEventInvokeConfig getFunctionEventInvokeConfigOutput ko with
    | none => .panicked trace
    | some ko1 => .returned { err := none, ko := ko1 } trace

/-- The hook `setResourceAdditionalFields`: the event-invoke reader, then, when
it returned no error, the provisioned-concurrency reader on the same target. -/
def setResourceAdditionalFields (rm : resourceManager) (ko : svcapitypes.Alias) :
    Outcome ReadResult :=
  match getFunctionEventInvokeConfig rm ko with
  | .panicked trace => .panicked trace
  | .returned eic trace =>
    match eic.err with
    | some eic_err => .returned { err := some eic_err, ko := eic.ko } trace
    | none =>
      match setProvisionedConcurrencyConfig rm eic.ko with
      | .panicked trace2 => .panicked (trace ++ trace2)
      | .returned pc trace2 =>
        match pc.err with
        | some err => .returned { err := some err, ko := pc.ko } (trace ++ trace2)
        | none => .returned { err := none, ko := pc.ko } (trace ++ trace2)

/-! ## The target of the event-invoke reader at the end of every run

`Outcome.panicked` keeps the trace of a run that faults. The definitions below
follow the same lines of `getFunctionEventInvokeConfig` and keep the target as
well: the assignments made before a fault have already been written through
`ko`, and the assignment that faults writes nothing. -/

/-- The target of the field-level normalization as written so far, and whether
the normalization has stopped at a nil dereference. -/
structure Written where
  ko : svcapitypes.Alias
  faulted : Bool
  deriving DecidableEq

/-- One assignment on a target written so far. After a fault nothing runs; an
assignment whose pointer chain holds a nil faults before it writes and leaves
the target as it stands; otherwise the target is the one the assignment
wrote. -/
def Written.assign (w : Written) (step : svcapitypes.Alias → Option svcapitypes.Alias) :
    Written :=
  if w.faulted then w
  else
    match step w.ko with
    | some ko1 => { ko := ko1, faulted := false }
    | none => { ko := w.ko, faulted := true }

/-- Lines 175-198 with the target kept on a fault: the destinations (lines
175-188), then the maximum event age (lines 189-193), then the retry attempts
(lines 194-198), each assignment on the target the previous ones wrote. -/
def normalizeEventInvokeConfigWritten (out : svcsdk.GetFunctionEventInvokeConfigOutput)
    (ko : svcapitypes.Alias) : Written :=
  let start : Written := { ko := ko, faulted := false }
  let afterDestinations : Written :=
    match out.DestinationConfig with
    | some destinationConfig =>
      let afterOnFailure : Written :=
        match destinationConfig.OnFailure with
        | some onFailure =>
          match onFailure.Destination with
          | some d => start.assign fun target => assignOnFailureDestination target (some d)
          | none => start
        | none => start
      match destinationConfig.OnSuccess with
      | some onSuccess =>
        match onSuccess.Destination with
        | some d => afterOnFailure.assign fun target => assignOnSuccessDestination target (some d)
        | none => afterOnFailure
      | none => afterOnFailure
    | none => start.assign fun target => assignDestinationConfig target none
  let afterEventAge : Written :=
    afterDestinations.assign (normalizeMaximumEventAgeInSeconds out)
  afterEventAge.assign (normalizeMaximumRetryAttempts out)

/-- The target of `getFunctionEventInvokeConfig` when the hook ends, by return or
by fault: cleared block on not found (line 170), untouched on any other error
(line 172), and on a successful read whatever lines 175-198 wrote before they
completed or faulted. -/
def getFunctionEventInvokeConfigWritten (rm : resourceManager) (ko : svcapitypes.Alias) :
    Written :=
  match rm.sdkapi.GetFunctionEventInvokeConfigWithContext
      { FunctionName := ko.Spec.FunctionName, Qualifier := ko.Spec.Name } with
  | .error err =>
    if eventInvokeConfigNotFound err then
      { ko := { ko with Spec := { ko.Spec with FunctionEventInvokeConfig := none } }
        faulted := false }
    else
      { ko := ko, faulted := false }
  | .ok getFunctionEventInvokeConfigOutput =>
    normalizeEventInvokeConfigWritten getFunctionEventInvokeConfigOutput ko

/-! ## Concrete inputs -/

/-- A remote platform on which every write succeeds and both reads fail with a
throttling error. -/
def throttledSdk : SdkApi :=
  { PutFunctionEventInvokeConfigWithContext := fun _ => none
    DeleteProvisionedConcurrencyConfigWithContext := fun _ => none
    PutProvisionedConcurrencyConfigWithContext := fun _ => none
    GetProvisionedConcurrencyConfigWithContext := fun _ =>
      .error (.aws "TooManyRequestsException" "rate exceeded")
    GetFunctionEventInvokeConfigWithContext := fun _ =>
      .error (.aws "TooManyRequestsException" "rate exceeded") }

/-- An alias of function `orders` named `live` with the two given blocks. -/
def liveAlias (eic : Option svcapitypes.PutFunctionEventInvokeConfigInput)
    (pc : Option svcapitypes.PutProvisionedConcurrencyConfigInput) : svcapitypes.Alias :=
  { Spec :=
    { FunctionEventInvokeConfig := eic
      FunctionName := some "orders"
      Name := some "live"
      ProvisionedConcurrencyConfig := pc } }

/-- A remote platform whose two reads answer with the given fixed outcomes and
on which every write succeeds. -/
def fixedReads (eic : Except Error svcsdk.GetFunctionEventInvokeConfigOutput)
    (pc : Except Error svcsdk.GetProvisionedConcurrencyConfigOutput) : SdkApi :=
  { PutFunctionEventInvokeConfigWithContext := fun _ => none
    DeleteProvisionedConcurrencyConfigWithContext := fun _ => none
    PutProvisionedConcurrencyConfigWithContext := fun _ => none
    GetProvisionedConcurrencyConfigWithContext := fun _ => pc
    GetFunctionEventInvokeConfigWithContext := fun _ => eic }

/-- An event-invoke response with an empty but present `DestinationConfig` and
two retry attempts. -/
def emptyDestinationsResponse : svcsdk.GetFunctionEventInvokeConfigOutput :=
  { DestinationConfig := some { OnFailure := none, OnSuccess := none }
    FunctionArn := none
    MaximumEventAgeInSeconds := none
    MaximumRetryAttempts := some 2 }

/-- A provisioned-concurrency read that finds nothing. -/
def noProvisionedConcurrency : Except Error svcsdk.GetProvisionedConcurrencyConfigOutput :=
  .error (.aws "ProvisionedConcurrencyConfigNotFoundException" "no config")

/-- An event-invoke block with every field nil. -/
def emptyEventInvokeConfig : svcapitypes.PutFunctionEventInvokeConfigInput :=
  { DestinationConfig := none, MaximumEventAgeInSeconds := none, MaximumRetryAttempts := none }

/-- The trace of one event-invoke read of `orders:live` that ended with `err`. -/
def eventInvokeReadTrace (err : Option Error) : List Event :=
  [Event.apiCall (.GetFunctionEventInvokeConfig
    { FunctionName := some "orders", Qualifier := some "live" }),
   Event.RecordAPICall "GET" "GetFunctionEventInvokeConfig" err]

/-- The trace of one provisioned-concurrency read of `orders:live` that ended
with `err`. -/
def provisionedConcurrencyReadTrace (err : Option Error) : List Event :=
  [Event.apiCall (.GetProvisionedConcurrencyConfig
    { FunctionName := some "orders", Qualifier := some "live" }),
   Event.RecordAPICall "GET" "GetProvisionedConcurrencyConfig" err]

/-- A manager whose event-invoke read answers `emptyDestinationsResponse`. -/
def emptyDestinationsManager : resourceManager :=
  ⟨fixedReads (.ok emptyDestinationsResponse) noProvisionedConcurrency⟩

/-- The block with an empty `DestinationConfig` and the given retry attempts. -/
def emptyDestinationsBlock (attempts : Option Int) :
    svcapitypes.PutFunctionEventInvokeConfigInput :=
  { DestinationConfig := some { OnFailure := none, OnSuccess := none }
    MaximumEventAgeInSeconds := none
    MaximumRetryAttempts := attempts }

/-- A manager both of whose reads find nothing. -/
def nothingFoundManager : resourceManager :=
  ⟨fixedReads (.error (.aws "EventInvokeConfigNotFoundException" "no config"))
    (.error (.aws "ResourceNotFoundException" "no alias"))⟩

/-- A provisioned-concurrency response with the given requested, allocated and
available counts. -/
def concurrencyResponse (requested allocated available : Option Int) :
    svcsdk.GetProvisionedConcurrencyConfigOutput :=
  { AllocatedProvisionedConcurrentExecutions := allocated
    AvailableProvisionedConcurrentExecutions := available
    LastModified := none
    RequestedProvisionedConcurrentExecutions := requested
    Status := some "READY"
    StatusReason := none }

/-- A manager whose provisioned-concurrency read answers the given response. -/
def concurrencyManager (out : svcsdk.GetProvisionedConcurrencyConfigOutput) :
    resourceManager :=
  ⟨fixedReads (.ok emptyDestinationsResponse) (.ok out)⟩

/-- A manager both of whose reads fail with the given errors. -/
def failingManager (eic pc : Error) : resourceManager :=
  ⟨fixedReads (.error eic) (.error pc)⟩

/-- An event-invoke response without `DestinationConfig` that still carries
three retry attempts and an event age. -/
def noDestinationsResponse : svcsdk.GetFunctionEventInvokeConfigOutput :=
  { DestinationConfig := none
    FunctionArn := some "arn:aws:lambda:orders:live"
    MaximumEventAgeInSeconds := some 60
    MaximumRetryAttempts := some 3 }

/-- An event-invoke response that reports only an `OnFailure` destination. -/
def deadLetterResponse : svcsdk.GetFunctionEventInvokeConfigOutput :=
  { DestinationConfig := some
      { OnFailure := some { Destination := some "arn:topic:dead-letter" }
        OnSuccess := none }
    FunctionArn := none
    MaximumEventAgeInSeconds := none
    MaximumRetryAttempts := none }

/-- A target block whose two destinations are set, with one retry attempt. -/
def bothDestinationsBlock (onFailure onSuccess : String) :
    svcapitypes.PutFunctionEventInvokeConfigInput :=
  { DestinationConfig := some
      { OnFailure := some { Destination := some onFailure }
        OnSuccess := some { Destination := some onSuccess } }
    MaximumEventAgeInSeconds := none
    MaximumRetryAttempts := some 1 }

/-- A target block with an `OnFailure` destination only, an event age and one
retry attempt. -/
def failureOnlyBlock (onFailure : Option String) :
    svcapitypes.PutFunctionEventInvokeConfigInput :=
  { DestinationConfig := some
      { OnFailure := some { Destination := onFailure }
        OnSuccess := none }
    MaximumEventAgeInSeconds := some 3600
    MaximumRetryAttempts := some 1 }

/-- An event-invoke response that reports only an `OnFailure` destination,
together with two retry attempts. -/
def deadLetterRetryResponse : svcsdk.GetFunctionEventInvokeConfigOutput :=
  { DestinationConfig := some
      { OnFailure := some { Destination := some "arn:topic:dead-letter" }
        OnSuccess := none }
    FunctionArn := none
    MaximumEventAgeInSeconds := none
    MaximumRetryAttempts := some 2 }

/-- A manager whose event-invoke read answers `deadLetterRetryResponse` and whose
provisioned-concurrency read is throttled. -/
def deadLetterManager : resourceManager :=
  ⟨fixedReads (.ok deadLetterRetryResponse)
    (.error (.aws "TooManyRequestsException" "rate exceeded"))⟩

/-- The destinations of a request as the specification words them: `OnFailure`
and `OnSuccess` are present exactly when the desired state has them, and each
carries the desired `Destination`, present or not. -/
def mirroredDestinationConfig (dc : svcapitypes.DestinationConfig) :
    svcsdk.DestinationConfig :=
  { OnFailure := dc.OnFailure.map fun onFailure => { Destination := onFailure.Destination }
    OnSuccess := dc.OnSuccess.map fun onSuccess => { Destination := onSuccess.Destination } }

/-- The event-invoke upsert request as the specification words it: function
identifier and qualifier always, and every optional field present exactly when
the desired block has it, with the same value; no optional field when the
desired block is absent. -/
def mirroredEventInvokeConfigInput (functionName qualifier : String)
    (eic : Option svcapitypes.PutFunctionEventInvokeConfigInput) :
    svcsdk.PutFunctionEventInvokeConfigInput :=
  { DestinationConfig :=
      (eic.bind fun block => block.DestinationConfig).map mirroredDestinationConfig
    FunctionName := some functionName
    MaximumEventAgeInSeconds := eic.bind fun block => block.MaximumEventAgeInSeconds
    MaximumRetryAttempts := eic.bind fun block => block.MaximumRetryAttempts
    Qualifier := some qualifier }

/-- A remote platform on which every write fails with the given error. -/
def failingWrites (e : Error) : SdkApi :=
  { PutFunctionEventInvokeConfigWithContext := fun _ => some e
    DeleteProvisionedConcurrencyConfigWithContext := fun _ => some e
    PutProvisionedConcurrencyConfigWithContext := fun _ => some e
    GetProvisionedConcurrencyConfigWithContext := fun _ =>
      .error (.aws "TooManyRequestsException" "rate exceeded")
    GetFunctionEventInvokeConfigWithContext := fun _ =>
      .error (.aws "TooManyRequestsException" "rate exceeded") }

/-- An event-invoke response whose `DestinationConfig` is present with both
members present and no destination in either, and no retry attempts. -/
def unsetDestinationsResponse : svcsdk.GetFunctionEventInvokeConfigOutput :=
  { DestinationConfig := some
      { OnFailure := some { Destination := none }
        OnSuccess := some { Destination := none } }
    FunctionArn := none
    MaximumEventAgeInSeconds := some 300
    MaximumRetryAttempts := none }

/-- A target block without `DestinationConfig`, holding one retry attempt. -/
def retryOnlyBlock : svcapitypes.PutFunctionEventInvokeConfigInput :=
  { DestinationConfig := none, MaximumEventAgeInSeconds := none, MaximumRetryAttempts := some 1 }

/-- An event-invoke response that reports both destinations. -/
def bothDestinationsResponse : svcsdk.GetFunctionEventInvokeConfigOutput :=
  { DestinationConfig := some
      { OnFailure := some { Destination := some "arn:topic:dead-letter" }
        OnSuccess := some { Destination := some "arn:queue:done" } }
    FunctionArn := none
    MaximumEventAgeInSeconds := some 60
    MaximumRetryAttempts := some 2 }

/-- A manager whose event-invoke read answers `bothDestinationsResponse`. -/
def bothDestinationsManager : resourceManager :=
  ⟨fixedReads (.ok bothDestinationsResponse) noProvisionedConcurrency⟩

/-! ## The provisioned-concurrency write hook -/

/-- Claim C1: when the desired state has `FunctionName` and `Name` and its
provisioned-concurrency block is nil, or non-nil with a nil count,
`updateProvisionedConcurrency` returns after issuing exactly one
`DeleteProvisionedConcurrencyConfig` call, keyed by the desired `FunctionName`
and `Name`, and no `PutProvisionedConcurrencyConfig` call. -/
theorem updateProvisionedConcurrency_removed_deletes (rm : resourceManager)
    (desired : resource) (functionName name : String)
    (hf : desired.ko.Spec.FunctionName = some functionName)
    (hn : desired.ko.Spec.Name = some name)
    (hpc : desired.ko.Spec.ProvisionedConcurrencyConfig = none ∨
      ∃ pc, desired.ko.Spec.ProvisionedConcurrencyConfig = some pc ∧
        pc.ProvisionedConcurrentExecutions = none) :
    (updateProvisionedConcurrency rm desired).calls =
        [Call.DeleteProvisionedConcurrencyConfig
          { FunctionName := some functionName, Qualifier := some name }] ∧
      (updateProvisionedConcurrency rm desired).calls.countP Call.isDelete = 1 ∧
      (updateProvisionedConcurrency rm desired).calls.countP Call.isPut = 0 ∧
      ∃ err trace, updateProvisionedConcurrency rm desired = .returned err trace := by
  have hrem : provisionedConcurrencyRemoved desired.ko.Spec = true := by
    rcases hpc with h | ⟨pc, h, hx⟩
    · simp [provisionedConcurrencyRemoved, h]
    · simp [provisionedConcurrencyRemoved, h, hx]
  have hcalls : (updateProvisionedConcurrency rm desired).calls =
      [Call.DeleteProvisionedConcurrencyConfig
        { FunctionName := some functionName, Qualifier := some name }] := by
    simp only [updateProvisionedConcurrency, hrem, hf, hn, if_true]
    cases rm.sdkapi.DeleteProvisionedConcurrencyConfigWithContext
      { FunctionName := some functionName, Qualifier := some name } <;>
      simp [Outcome.calls, Outcome.trace, Outcome.callsOf]
  refine ⟨hcalls, ?_, ?_, ?_⟩
  · rw [hcalls]; simp [Call.isDelete]
  · rw [hcalls]; simp [Call.isPut]
  · simp only [updateProvisionedConcurrency, hrem, hf, hn, if_true]
    cases rm.sdkapi.DeleteProvisionedConcurrencyConfigWithContext
      { FunctionName := some functionName, Qualifier := some name } <;> simp

/-- Claim C1 at a concrete input: the alias `orders:live` whose block is present
with a nil count. -/
theorem updateProvisionedConcurrency_removed_deletes_witness :
    (updateProvisionedConcurrency ⟨throttledSdk⟩
        ⟨liveAlias none (some { ProvisionedConcurrentExecutions := none })⟩).calls =
      [Call.DeleteProvisionedConcurrencyConfig
        { FunctionName := some "orders", Qualifier := some "live" }] :=
  (updateProvisionedConcurrency_removed_deletes ⟨throttledSdk⟩
    ⟨liveAlias none (some { ProvisionedConcurrentExecutions := none })⟩ "orders" "live"
    rfl rfl (Or.inr ⟨_, rfl, rfl⟩)).1

/-- Claim C2: when the desired state has `FunctionName` and `Name` and its
provisioned-concurrency block holds the count `n`,
`updateProvisionedConcurrency` returns after issuing exactly one
`PutProvisionedConcurrencyConfig` call, carrying `n` and the desired
`FunctionName` and `Name`, and no `DeleteProvisionedConcurrencyConfig` call. -/
theorem updateProvisionedConcurrency_present_puts (rm : resourceManager)
    (desired : resource) (functionName name : String)
    (pc : svcapitypes.PutProvisionedConcurrencyConfigInput) (n : Int)
    (hf : desired.ko.Spec.FunctionName = some functionName)
    (hn : desired.ko.Spec.Name = some name)
    (hpc : desired.ko.Spec.ProvisionedConcurrencyConfig = some pc)
    (hcount : pc.ProvisionedConcurrentExecutions = some n) :
    (updateProvisionedConcurrency rm desired).calls =
        [Call.PutProvisionedConcurrencyConfig
          { FunctionName := some functionName
            ProvisionedConcurrentExecutions := some n
            Qualifier := some name }] ∧
      (updateProvisionedConcurrency rm desired).calls.countP Call.isPut = 1 ∧
      (updateProvisionedConcurrency rm desired).calls.countP Call.isDelete = 0 ∧
      ∃ err trace, updateProvisionedConcurrency rm desired = .returned err trace := by
  have hrem : provisionedConcurrencyRemoved desired.ko.Spec = false := by
    simp [provisionedConcurrencyRemoved, hpc, hcount]
  have hcalls : (updateProvisionedConcurrency rm desired).calls =
      [Call.PutProvisionedConcurrencyConfig
        { FunctionName := some functionName
          ProvisionedConcurrentExecutions := some n
          Qualifier := some name }] := by
    simp only [updateProvisionedConcurrency, hrem, hf, hn, hpc, hcount]
    cases rm.sdkapi.PutProvisionedConcurrencyConfigWithContext
      { FunctionName := some functionName
        ProvisionedConcurrentExecutions := some n
        Qualifier := some name } <;>
      simp [Outcome.calls, Outcome.trace, Outcome.callsOf]
  refine ⟨hcalls, ?_, ?_, ?_⟩
  · rw [hcalls]; simp [Call.isPut]
  · rw [hcalls]; simp [Call.isDelete]
  · simp only [updateProvisionedConcurrency, hrem, hf, hn, hpc, hcount]
    cases rm.sdkapi.PutProvisionedConcurrencyConfigWithContext
      { FunctionName := some functionName
        ProvisionedConcurrentExecutions := some n
        Qualifier := some name } <;> simp

/-- Claim C2 at a concrete input: the alias `orders:live` with a count of 5. -/
theorem updateProvisionedConcurrency_present_puts_witness :
    (updateProvisionedConcurrency ⟨throttledSdk⟩
        ⟨liveAlias none (some { ProvisionedConcurrentExecutions := some 5 })⟩).calls =
      [Call.PutProvisionedConcurrencyConfig
        { FunctionName := some "orders"
          ProvisionedConcurrentExecutions := some 5
          Qualifier := some "live" }] :=
  (updateProvisionedConcurrency_present_puts ⟨throttledSdk⟩
    ⟨liveAlias none (some { ProvisionedConcurrentExecutions := some 5 })⟩ "orders" "live"
    { ProvisionedConcurrentExecutions := some 5 } 5 rfl rfl rfl rfl).1

/-! ## The event-invoke reader -/

/-- After a successful read the reader either faults or returns no error with
the normalized target. -/
theorem getFunctionEventInvokeConfig_of_ok (rm : resourceManager) (ko : svcapitypes.Alias)
    (out : svcsdk.GetFunctionEventInvokeConfigOutput)
    (hread : rm.sdkapi.GetFunctionEventInvokeConfigWithContext
      { FunctionName := ko.Spec.FunctionName, Qualifier := ko.Spec.Name } = .ok out) :
    getFunctionEventInvokeConfig rm ko =
      match normalizeEventInvokeConfig out ko with
      | none => .panicked
          [Event.apiCall (.GetFunctionEventInvokeConfig
            { FunctionName := ko.Spec.FunctionName, Qualifier := ko.Spec.Name }),
           Event.RecordAPICall "GET" "GetFunctionEventInvokeConfig" none]
      | some ko1 => .returned { err := none, ko := ko1 }
          [Event.apiCall (.GetFunctionEventInvokeConfig
            { FunctionName := ko.Spec.FunctionName, Qualifier := ko.Spec.Name }),
           Event.RecordAPICall "GET" "GetFunctionEventInvokeConfig" none] := by
  simp only [getFunctionEventInvokeConfig, hread, errOf]

/-- What the field-level normalization leaves behind when it does not fault:
the block exists before and after, the fields outside it are untouched, and the
two scalar fields and the presence of `DestinationConfig` are as stated. -/
theorem normalizeEventInvokeConfig_some (out : svcsdk.GetFunctionEventInvokeConfigOutput)
    (ko ko1 : svcapitypes.Alias) (h : normalizeEventInvokeConfig out ko = some ko1) :
    ∃ eic0 eic1, ko.Spec.FunctionEventInvokeConfig = some eic0 ∧
      ko1.Spec.FunctionEventInvokeConfig = some eic1 ∧
      ko1.Spec.FunctionName = ko.Spec.FunctionName ∧
      ko1.Spec.Name = ko.Spec.Name ∧
      ko1.Spec.ProvisionedConcurrencyConfig = ko.Spec.ProvisionedConcurrencyConfig ∧
      eic1.MaximumEventAgeInSeconds = out.MaximumEventAgeInSeconds ∧
      eic1.MaximumRetryAttempts =
        (match out.DestinationConfig with
          | some _ => out.MaximumRetryAttempts
          | none => none) ∧
      (out.DestinationConfig = none → eic1.DestinationConfig = none) ∧
      (out.DestinationConfig ≠ none →
        (eic1.DestinationConfig = none ↔ eic0.DestinationConfig = none)) := by
  obtain ⟨⟨eic, fn, nm, pc⟩⟩ := ko
  obtain ⟨odc, arn, omea, omra⟩ := out
  rcases eic with _ | ⟨⟨dc, mea, mra⟩⟩
  · rcases odc with _ | ⟨⟨_ | ⟨⟨_ | d1⟩⟩, _ | ⟨⟨_ | d2⟩⟩⟩⟩ <;> rcases omea with _ | a <;>
      simp [normalizeEventInvokeConfig, normalizeDestinationConfig,
        normalizeMaximumEventAgeInSeconds, normalizeMaximumRetryAttempts,
        assignOnFailureDestination, assignOnSuccessDestination, assignDestinationConfig,
        assignMaximumEventAgeInSeconds, assignMaximumRetryAttempts] at h
  · rcases odc with _ | ⟨⟨_ | ⟨⟨_ | d1⟩⟩, _ | ⟨⟨_ | d2⟩⟩⟩⟩ <;>
      rcases dc with _ | ⟨⟨_ | f, _ | g⟩⟩ <;> rcases omea with _ | a <;>
      simp [normalizeEventInvokeConfig, normalizeDestinationConfig,
        normalizeMaximumEventAgeInSeconds, normalizeMaximumRetryAttempts,
        assignOnFailureDestination, assignOnSuccessDestination, assignDestinationConfig,
        assignMaximumEventAgeInSeconds, assignMaximumRetryAttempts] at h <;>
      subst h <;> simp

/-- The field-level normalization is stable: run again on its own result, with
any provisioned-concurrency block put in, it changes nothing. -/
theorem normalizeEventInvokeConfig_stable (out : svcsdk.GetFunctionEventInvokeConfigOutput)
    (ko ko1 : svcapitypes.Alias) (h : normalizeEventInvokeConfig out ko = some ko1)
    (pc : Option svcapitypes.PutProvisionedConcurrencyConfigInput) :
    normalizeEventInvokeConfig out
        { ko1 with Spec := { ko1.Spec with ProvisionedConcurrencyConfig := pc } } =
      some { ko1 with Spec := { ko1.Spec with ProvisionedConcurrencyConfig := pc } } := by
  obtain ⟨⟨eic, fn, nm, pc0⟩⟩ := ko
  obtain ⟨odc, arn, omea, omra⟩ := out
  rcases eic with _ | ⟨⟨dc, mea, mra⟩⟩
  · rcases odc with _ | ⟨⟨_ | ⟨⟨_ | d1⟩⟩, _ | ⟨⟨_ | d2⟩⟩⟩⟩ <;> rcases omea with _ | a <;>
      simp [normalizeEventInvokeConfig, normalizeDestinationConfig,
        normalizeMaximumEventAgeInSeconds, normalizeMaximumRetryAttempts,
        assignOnFailureDestination, assignOnSuccessDestination, assignDestinationConfig,
        assignMaximumEventAgeInSeconds, assignMaximumRetryAttempts] at h
  · rcases odc with _ | ⟨⟨_ | ⟨⟨_ | d1⟩⟩, _ | ⟨⟨_ | d2⟩⟩⟩⟩ <;>
      rcases dc with _ | ⟨⟨_ | f, _ | g⟩⟩ <;> rcases omea with _ | a <;>
      simp [normalizeEventInvokeConfig, normalizeDestinationConfig,
        normalizeMaximumEventAgeInSeconds, normalizeMaximumRetryAttempts,
        assignOnFailureDestination, assignOnSuccessDestination, assignDestinationConfig,
        assignMaximumEventAgeInSeconds, assignMaximumRetryAttempts] at h <;>
      subst h <;>
      simp [normalizeEventInvokeConfig, normalizeDestinationConfig,
        normalizeMaximumEventAgeInSeconds, normalizeMaximumRetryAttempts,
        assignOnFailureDestination, assignOnSuccessDestination, assignDestinationConfig,
        assignMaximumEventAgeInSeconds, assignMaximumRetryAttempts]

/-- The event-invoke reader leaves `FunctionName`, `Name` and the
provisioned-concurrency block of the target as they were. -/
theorem getFunctionEventInvokeConfig_frame (rm : resourceManager) (ko : svcapitypes.Alias)
    (r : ReadResult) (trace : List Event)
    (hret : getFunctionEventInvokeConfig rm ko = .returned r trace) :
    r.ko.Spec.FunctionName = ko.Spec.FunctionName ∧ r.ko.Spec.Name = ko.Spec.Name ∧
      r.ko.Spec.ProvisionedConcurrencyConfig = ko.Spec.ProvisionedConcurrencyConfig := by
  cases hresp : rm.sdkapi.GetFunctionEventInvokeConfigWithContext
      { FunctionName := ko.Spec.FunctionName, Qualifier := ko.Spec.Name } with
  | error e =>
    simp only [getFunctionEventInvokeConfig, hresp] at hret
    split at hret <;> simp only [Outcome.returned.injEq] at hret <;>
      obtain ⟨hr, -⟩ := hret <;> subst hr <;> simp
  | ok out =>
    rw [getFunctionEventInvokeConfig_of_ok rm ko out hresp] at hret
    cases hn : normalizeEventInvokeConfig out ko with
    | none => simp [hn] at hret
    | some ko1 =>
      simp only [hn, Outcome.returned.injEq] at hret
      obtain ⟨hr, -⟩ := hret
      subst hr
      obtain ⟨_, _, -, -, hf, hnm, hpc, -⟩ := normalizeEventInvokeConfig_some out ko ko1 hn
      exact ⟨hf, hnm, hpc⟩

/-- The event-invoke reader is stable: run again on the target it returned, with
any provisioned-concurrency block put in, it returns the same error, leaves that
target as it is and issues the same call. -/
theorem getFunctionEventInvokeConfig_stable (rm : resourceManager) (ko : svcapitypes.Alias)
    (r : ReadResult) (trace : List Event)
    (hret : getFunctionEventInvokeConfig rm ko = .returned r trace)
    (pc : Option svcapitypes.PutProvisionedConcurrencyConfigInput) :
    getFunctionEventInvokeConfig rm
        { r.ko with Spec := { r.ko.Spec with ProvisionedConcurrencyConfig := pc } } =
      .returned
        { err := r.err
          ko := { r.ko with Spec := { r.ko.Spec with ProvisionedConcurrencyConfig := pc } } }
        trace := by
  obtain ⟨hf, hnm, -⟩ := getFunctionEventInvokeConfig_frame rm ko r trace hret
  cases hresp : rm.sdkapi.GetFunctionEventInvokeConfigWithContext
      { FunctionName := ko.Spec.FunctionName, Qualifier := ko.Spec.Name } with
  | error e =>
    simp only [getFunctionEventInvokeConfig, hresp] at hret
    simp only [getFunctionEventInvokeConfig, hf, hnm, hresp]
    split at hret <;> simp only [Outcome.returned.injEq] at hret <;>
      obtain ⟨hr, ht⟩ := hret <;> subst hr <;> subst ht <;> simp_all
  | ok out =>
    rw [getFunctionEventInvokeConfig_of_ok rm ko out hresp] at hret
    cases hn : normalizeEventInvokeConfig out ko with
    | none => simp [hn] at hret
    | some ko1 =>
      simp only [hn, Outcome.returned.injEq] at hret
      obtain ⟨hr, ht⟩ := hret
      subst hr
      subst ht
      have hf1 : ko1.Spec.FunctionName = ko.Spec.FunctionName := hf
      have hnm1 : ko1.Spec.Name = ko.Spec.Name := hnm
      have hresp2 : rm.sdkapi.GetFunctionEventInvokeConfigWithContext
          { FunctionName :=
              ({ ko1 with Spec := { ko1.Spec with ProvisionedConcurrencyConfig := pc } } :
                svcapitypes.Alias).Spec.FunctionName
            Qualifier :=
              ({ ko1 with Spec := { ko1.Spec with ProvisionedConcurrencyConfig := pc } } :
                svcapitypes.Alias).Spec.Name } = .ok out := by
        simpa [hf1, hnm1] using hresp
      rw [getFunctionEventInvokeConfig_of_ok rm _ out hresp2,
        normalizeEventInvokeConfig_stable out ko ko1 hn pc]
      simp [hf1, hnm1]

/-- Claim C3, as the code has it: whenever `getFunctionEventInvokeConfig`
returns after a successful read, it returns no error and the target's
`MaximumRetryAttempts` is non-nil only if the response's `DestinationConfig` is
non-nil; the target's own `DestinationConfig` is then non-nil too, provided it
was non-nil before the read. -/
theorem getFunctionEventInvokeConfig_retry_correlation (rm : resourceManager)
    (ko : svcapitypes.Alias) (out : svcsdk.GetFunctionEventInvokeConfigOutput)
    (r : ReadResult) (trace : List Event)
    (hread : rm.sdkapi.GetFunctionEventInvokeConfigWithContext
      { FunctionName := ko.Spec.FunctionName, Qualifier := ko.Spec.Name } = .ok out)
    (hret : getFunctionEventInvokeConfig rm ko = .returned r trace) :
    r.err = none ∧
      ∃ eic0 eic1, ko.Spec.FunctionEventInvokeConfig = some eic0 ∧
        r.ko.Spec.FunctionEventInvokeConfig = some eic1 ∧
        (eic1.MaximumRetryAttempts ≠ none → out.DestinationConfig ≠ none) ∧
        (eic0.DestinationConfig ≠ none → eic1.MaximumRetryAttempts ≠ none →
          eic1.DestinationConfig ≠ none) := by
  rw [getFunctionEventInvokeConfig_of_ok rm ko out hread] at hret
  cases hn : normalizeEventInvokeConfig out ko with
  | none => simp [hn] at hret
  | some ko1 =>
    simp only [hn, Outcome.returned.injEq] at hret
    obtain ⟨hr, -⟩ := hret
    subst hr
    obtain ⟨eic0, eic1, h0, h1, -, -, -, -, hmra, hnone, hsome⟩ :=
      normalizeEventInvokeConfig_some out ko ko1 hn
    refine ⟨rfl, eic0, eic1, h0, h1, ?_, ?_⟩
    · intro hne hdc
      rw [hdc] at hmra
      exact hne hmra
    · intro h0dc hne hdc1
      cases hodc : out.DestinationConfig with
      | none =>
        rw [hodc] at hmra
        exact hne hmra
      | some odc =>
        have hx : out.DestinationConfig ≠ none := by simp [hodc]
        exact h0dc ((hsome hx).1 hdc1)

/-- Claim C3 as amended, at a concrete input: a target with an empty
`DestinationConfig` and a response with an empty one and two retry attempts. -/
theorem getFunctionEventInvokeConfig_retry_correlation_witness :
    getFunctionEventInvokeConfig emptyDestinationsManager
        (liveAlias (some (emptyDestinationsBlock none)) none) =
      .returned { err := none, ko := liveAlias (some (emptyDestinationsBlock (some 2))) none }
        (eventInvokeReadTrace none) ∧
    ∃ eic0 eic1,
      (liveAlias (some (emptyDestinationsBlock none)) none).Spec.FunctionEventInvokeConfig =
        some eic0 ∧
      (liveAlias (some (emptyDestinationsBlock (some 2))) none).Spec.FunctionEventInvokeConfig =
        some eic1 ∧
      (eic1.MaximumRetryAttempts ≠ none → emptyDestinationsResponse.DestinationConfig ≠ none) ∧
      (eic0.DestinationConfig ≠ none → eic1.MaximumRetryAttempts ≠ none →
        eic1.DestinationConfig ≠ none) :=
  ⟨rfl, (getFunctionEventInvokeConfig_retry_correlation emptyDestinationsManager
    (liveAlias (some (emptyDestinationsBlock none)) none) emptyDestinationsResponse
    { err := none, ko := liveAlias (some (emptyDestinationsBlock (some 2))) none }
    (eventInvokeReadTrace none) rfl rfl).2⟩

/-- Claim C3 fails as stated: on a target whose block has no `DestinationConfig`
and a response with an empty but present `DestinationConfig` and two retry
attempts, the reader returns no error and leaves `MaximumRetryAttempts` at 2
while the target's `DestinationConfig` is still nil. -/
theorem getFunctionEventInvokeConfig_retry_without_target_destinations :
    getFunctionEventInvokeConfig emptyDestinationsManager
        (liveAlias (some emptyEventInvokeConfig) none) =
      .returned
        { err := none
          ko := liveAlias (some
            { DestinationConfig := none
              MaximumEventAgeInSeconds := none
              MaximumRetryAttempts := some 2 }) none }
        (eventInvokeReadTrace none) := by
  rfl

/-! ## The provisioned-concurrency reader and the composite read -/

/-- The provisioned-concurrency reader always returns, and it changes nothing in
the target but the provisioned-concurrency block. -/
theorem setProvisionedConcurrencyConfig_frame (rm : resourceManager)
    (ko : svcapitypes.Alias) :
    ∃ r trace, setProvisionedConcurrencyConfig rm ko = .returned r trace ∧
      r.ko = { ko with Spec :=
        { ko.Spec with ProvisionedConcurrencyConfig := r.ko.Spec.ProvisionedConcurrencyConfig } } := by
  cases hresp : rm.sdkapi.GetProvisionedConcurrencyConfigWithContext
      { FunctionName := ko.Spec.FunctionName, Qualifier := ko.Spec.Name } with
  | error e =>
    by_cases hnf : provisionedConcurrencyNotFound e = true <;>
      simp [setProvisionedConcurrencyConfig, hresp, hnf]
  | ok out => simp [setProvisionedConcurrencyConfig, hresp]

/-- The provisioned-concurrency reader is stable: run again on the target it
returned, it returns the same result and issues the same call. -/
theorem setProvisionedConcurrencyConfig_stable (rm : resourceManager)
    (ko : svcapitypes.Alias) (r : ReadResult) (trace : List Event)
    (hret : setProvisionedConcurrencyConfig rm ko = .returned r trace) :
    setProvisionedConcurrencyConfig rm r.ko = .returned r trace := by
  cases hresp : rm.sdkapi.GetProvisionedConcurrencyConfigWithContext
      { FunctionName := ko.Spec.FunctionName, Qualifier := ko.Spec.Name } with
  | error e =>
    cases hnf : provisionedConcurrencyNotFound e with
    | true =>
      simp only [setProvisionedConcurrencyConfig, hresp, hnf, if_true,
        Outcome.returned.injEq] at hret
      obtain ⟨hr, ht⟩ := hret
      subst hr
      subst ht
      simp [setProvisionedConcurrencyConfig, hresp, hnf]
    | false =>
      simp only [setProvisionedConcurrencyConfig, hresp, hnf, Bool.false_eq_true, if_false,
        Outcome.returned.injEq] at hret
      obtain ⟨hr, ht⟩ := hret
      subst hr
      subst ht
      simp [setProvisionedConcurrencyConfig, hresp, hnf]
  | ok out =>
    simp only [setProvisionedConcurrencyConfig, hresp, Outcome.returned.injEq] at hret
    obtain ⟨hr, ht⟩ := hret
    subst hr
    subst ht
    simp [setProvisionedConcurrencyConfig, hresp]

/-- Claim C4: when `setResourceAdditionalFields` returns, running it again on
the target it produced, against the same remote answers, returns the same error
and leaves that target as it is (and issues the same calls). -/
theorem setResourceAdditionalFields_idempotent (rm : resourceManager)
    (ko : svcapitypes.Alias) (r : ReadResult) (trace : List Event)
    (hret : setResourceAdditionalFields rm ko = .returned r trace) :
    setResourceAdditionalFields rm r.ko = .returned r trace := by
  unfold setResourceAdditionalFields at hret
  cases h1 : getFunctionEventInvokeConfig rm ko with
  | panicked t1 => simp [h1] at hret
  | returned r1 t1 =>
    have hstable := getFunctionEventInvokeConfig_stable rm ko r1 t1 h1
    cases he : r1.err with
    | some e =>
      simp only [h1, he, Outcome.returned.injEq] at hret
      obtain ⟨hr, ht⟩ := hret
      subst hr
      subst ht
      have h2 := hstable r1.ko.Spec.ProvisionedConcurrencyConfig
      have h3 : getFunctionEventInvokeConfig rm r1.ko =
          .returned { err := r1.err, ko := r1.ko } t1 := h2
      simp only [setResourceAdditionalFields, h3, he]
    | none =>
      obtain ⟨r2, t2, hpc, hko⟩ := setProvisionedConcurrencyConfig_frame rm r1.ko
      have h2 := hstable r2.ko.Spec.ProvisionedConcurrencyConfig
      rw [← hko] at h2
      have h4 := setProvisionedConcurrencyConfig_stable rm r1.ko r2 t2 hpc
      clear hstable hko
      obtain ⟨err2, ko2⟩ := r2
      simp only [h1, he, hpc] at hret
      cases err2 with
      | none =>
        simp only [Outcome.returned.injEq] at hret
        obtain ⟨hr, ht⟩ := hret
        subst hr
        subst ht
        simp only [setResourceAdditionalFields, h2, he, h4]
      | some e2 =>
        simp only [Outcome.returned.injEq] at hret
        obtain ⟨hr, ht⟩ := hret
        subst hr
        subst ht
        simp only [setResourceAdditionalFields, h2, he, h4]

/-- Claim C4 at a concrete input: an empty target block, the response
`emptyDestinationsResponse` and no provisioned concurrency. -/
theorem setResourceAdditionalFields_idempotent_witness :
    setResourceAdditionalFields emptyDestinationsManager
        (liveAlias (some emptyEventInvokeConfig)
          (some { ProvisionedConcurrentExecutions := some 5 })) =
      .returned
        { err := none
          ko := liveAlias (some
            { emptyEventInvokeConfig with MaximumRetryAttempts := some 2 }) none }
        (eventInvokeReadTrace none ++
          provisionedConcurrencyReadTrace
            (some (.aws "ProvisionedConcurrencyConfigNotFoundException" "no config"))) ∧
    setResourceAdditionalFields emptyDestinationsManager
        (liveAlias (some { emptyEventInvokeConfig with MaximumRetryAttempts := some 2 }) none) =
      .returned
        { err := none
          ko := liveAlias (some
            { emptyEventInvokeConfig with MaximumRetryAttempts := some 2 }) none }
        (eventInvokeReadTrace none ++
          provisionedConcurrencyReadTrace
            (some (.aws "ProvisionedConcurrencyConfigNotFoundException" "no config"))) :=
  ⟨by decide, setResourceAdditionalFields_idempotent emptyDestinationsManager
    (liveAlias (some emptyEventInvokeConfig)
      (some { ProvisionedConcurrentExecutions := some 5 }))
    { err := none
      ko := liveAlias (some { emptyEventInvokeConfig with MaximumRetryAttempts := some 2 }) none }
    _ (by decide)⟩

/-- After the event-invoke reader returned without error, the block is nil
exactly when the read was classified as not found. -/
theorem getFunctionEventInvokeConfig_nil_iff (rm : resourceManager) (ko : svcapitypes.Alias)
    (r : ReadResult) (trace : List Event)
    (hret : getFunctionEventInvokeConfig rm ko = .returned r trace) (hok : r.err = none) :
    r.ko.Spec.FunctionEventInvokeConfig = none ↔
      ∃ e, rm.sdkapi.GetFunctionEventInvokeConfigWithContext
        { FunctionName := ko.Spec.FunctionName, Qualifier := ko.Spec.Name } = .error e ∧
        eventInvokeConfigNotFound e = true := by
  cases hresp : rm.sdkapi.GetFunctionEventInvokeConfigWithContext
      { FunctionName := ko.Spec.FunctionName, Qualifier := ko.Spec.Name } with
  | error e =>
    cases hnf : eventInvokeConfigNotFound e with
    | true =>
      simp only [getFunctionEventInvokeConfig, hresp, hnf, if_true,
        Outcome.returned.injEq] at hret
      obtain ⟨hr, -⟩ := hret
      subst hr
      simp [hnf]
    | false =>
      simp only [getFunctionEventInvokeConfig, hresp, hnf, Bool.false_eq_true, if_false,
        Outcome.returned.injEq] at hret
      obtain ⟨hr, -⟩ := hret
      subst hr
      simp at hok
  | ok out =>
    rw [getFunctionEventInvokeConfig_of_ok rm ko out hresp] at hret
    cases hn : normalizeEventInvokeConfig out ko with
    | none => simp [hn] at hret
    | some ko1 =>
      simp only [hn, Outcome.returned.injEq] at hret
      obtain ⟨hr, -⟩ := hret
      subst hr
      obtain ⟨_, eic1, -, h1, -⟩ := normalizeEventInvokeConfig_some out ko ko1 hn
      simp [h1]

/-- After the provisioned-concurrency reader returned without error, the block
is nil exactly when the read was classified as not found. -/
theorem setProvisionedConcurrencyConfig_nil_iff (rm : resourceManager)
    (ko : svcapitypes.Alias) (r : ReadResult) (trace : List Event)
    (hret : setProvisionedConcurrencyConfig rm ko = .returned r trace) (hok : r.err = none) :
    r.ko.Spec.ProvisionedConcurrencyConfig = none ↔
      ∃ e, rm.sdkapi.GetProvisionedConcurrencyConfigWithContext
        { FunctionName := ko.Spec.FunctionName, Qualifier := ko.Spec.Name } = .error e ∧
        provisionedConcurrencyNotFound e = true := by
  cases hresp : rm.sdkapi.GetProvisionedConcurrencyConfigWithContext
      { FunctionName := ko.Spec.FunctionName, Qualifier := ko.Spec.Name } with
  | error e =>
    cases hnf : provisionedConcurrencyNotFound e with
    | true =>
      simp only [setProvisionedConcurrencyConfig, hresp, hnf, if_true,
        Outcome.returned.injEq] at hret
      obtain ⟨hr, -⟩ := hret
      subst hr
      simp [hnf]
    | false =>
      simp only [setProvisionedConcurrencyConfig, hresp, hnf, Bool.false_eq_true, if_false,
        Outcome.returned.injEq] at hret
      obtain ⟨hr, -⟩ := hret
      subst hr
      simp at hok
  | ok out =>
    simp only [setProvisionedConcurrencyConfig, hresp, Outcome.returned.injEq] at hret
    obtain ⟨hr, -⟩ := hret
    subst hr
    simp

/-- The composite read, taken apart: when it returns without error, both readers
returned without error, the second one on the target the first one left. -/
theorem setResourceAdditionalFields_returned (rm : resourceManager)
    (ko : svcapitypes.Alias) (r : ReadResult) (trace : List Event)
    (hret : setResourceAdditionalFields rm ko = .returned r trace) (hok : r.err = none) :
    ∃ r1 t1 t2, getFunctionEventInvokeConfig rm ko = .returned r1 t1 ∧ r1.err = none ∧
      setProvisionedConcurrencyConfig rm r1.ko = .returned r t2 ∧ trace = t1 ++ t2 := by
  unfold setResourceAdditionalFields at hret
  cases h1 : getFunctionEventInvokeConfig rm ko with
  | panicked t1 => simp [h1] at hret
  | returned r1 t1 =>
    cases he : r1.err with
    | some e =>
      simp only [h1, he, Outcome.returned.injEq] at hret
      obtain ⟨hr, -⟩ := hret
      subst hr
      simp at hok
    | none =>
      simp only [h1, he] at hret
      cases h2 : setProvisionedConcurrencyConfig rm r1.ko with
      | panicked t2 => simp [h2] at hret
      | returned r2 t2 =>
        obtain ⟨err2, ko2⟩ := r2
        simp only [h2] at hret
        cases err2 with
        | some e2 =>
          simp only [Outcome.returned.injEq] at hret
          obtain ⟨hr, -⟩ := hret
          subst hr
          simp at hok
        | none =>
          simp only [Outcome.returned.injEq] at hret
          obtain ⟨hr, ht⟩ := hret
          subst hr
          exact ⟨r1, t1, t2, rfl, he, h2, ht.symm⟩

/-- Claim C5: when the event-invoke read fails with an AWS error coded
`EventInvokeConfigNotFoundException` or `ResourceNotFoundException` and the
provisioned-concurrency read fails with an AWS error coded
`ProvisionedConcurrencyConfigNotFoundException` or `ResourceNotFoundException`,
`setResourceAdditionalFields` returns no error and leaves both blocks nil,
whatever the target held. -/
theorem setResourceAdditionalFields_absent (rm : resourceManager) (ko : svcapitypes.Alias)
    (code1 message1 code2 message2 : String)
    (h1 : rm.sdkapi.GetFunctionEventInvokeConfigWithContext
      { FunctionName := ko.Spec.FunctionName, Qualifier := ko.Spec.Name } =
        .error (.aws code1 message1))
    (hc1 : code1 = "EventInvokeConfigNotFoundException" ∨ code1 = "ResourceNotFoundException")
    (h2 : rm.sdkapi.GetProvisionedConcurrencyConfigWithContext
      { FunctionName := ko.Spec.FunctionName, Qualifier := ko.Spec.Name } =
        .error (.aws code2 message2))
    (hc2 : code2 = "ProvisionedConcurrencyConfigNotFoundException" ∨
      code2 = "ResourceNotFoundException") :
    ∃ trace, setResourceAdditionalFields rm ko =
      .returned
        { err := none
          ko := { Spec :=
            { FunctionEventInvokeConfig := none
              FunctionName := ko.Spec.FunctionName
              Name := ko.Spec.Name
              ProvisionedConcurrencyConfig := none } } }
        trace := by
  have hnf1 : eventInvokeConfigNotFound (.aws code1 message1) = true := by
    rcases hc1 with h | h <;> simp [eventInvokeConfigNotFound, ackerr.AWSError, h]
  have hnf2 : provisionedConcurrencyNotFound (.aws code2 message2) = true := by
    rcases hc2 with h | h <;> simp [provisionedConcurrencyNotFound, ackerr.AWSError, h]
  simp [setResourceAdditionalFields, getFunctionEventInvokeConfig,
    setProvisionedConcurrencyConfig, h1, h2, hnf1, hnf2]

/-- Claim C5 at a concrete input: a target holding both blocks, and a platform
on which neither configuration exists. -/
theorem setResourceAdditionalFields_absent_witness :
    ∃ trace, setResourceAdditionalFields nothingFoundManager
        (liveAlias (some (emptyDestinationsBlock (some 1)))
          (some { ProvisionedConcurrentExecutions := some 5 })) =
      .returned { err := none, ko := liveAlias none none } trace :=
  setResourceAdditionalFields_absent nothingFoundManager
    (liveAlias (some (emptyDestinationsBlock (some 1)))
      (some { ProvisionedConcurrentExecutions := some 5 }))
    "EventInvokeConfigNotFoundException" "no config" "ResourceNotFoundException" "no alias"
    rfl (Or.inl rfl) rfl (Or.inr rfl)

/-- Claim C6: whenever `setResourceAdditionalFields` returns no error, the
event-invoke block is nil afterwards exactly when the event-invoke read was
classified as not found, and the provisioned-concurrency block is nil afterwards
exactly when the provisioned-concurrency read was classified as not found. -/
theorem setResourceAdditionalFields_nil_iff_not_found (rm : resourceManager)
    (ko : svcapitypes.Alias) (r : ReadResult) (trace : List Event)
    (hret : setResourceAdditionalFields rm ko = .returned r trace) (hok : r.err = none) :
    (r.ko.Spec.FunctionEventInvokeConfig = none ↔
      ∃ e, rm.sdkapi.GetFunctionEventInvokeConfigWithContext
        { FunctionName := ko.Spec.FunctionName, Qualifier := ko.Spec.Name } = .error e ∧
        eventInvokeConfigNotFound e = true) ∧
    (r.ko.Spec.ProvisionedConcurrencyConfig = none ↔
      ∃ e, rm.sdkapi.GetProvisionedConcurrencyConfigWithContext
        { FunctionName := ko.Spec.FunctionName, Qualifier := ko.Spec.Name } = .error e ∧
        provisionedConcurrencyNotFound e = true) := by
  obtain ⟨r1, t1, t2, hg, he1, hs, -⟩ :=
    setResourceAdditionalFields_returned rm ko r trace hret hok
  obtain ⟨hf, hnm, -⟩ := getFunctionEventInvokeConfig_frame rm ko r1 t1 hg
  obtain ⟨r2, t3, hs2, hko⟩ := setProvisionedConcurrencyConfig_frame rm r1.ko
  rw [hs] at hs2
  simp only [Outcome.returned.injEq] at hs2
  obtain ⟨hr, -⟩ := hs2
  subst hr
  constructor
  · rw [← getFunctionEventInvokeConfig_nil_iff rm ko r1 t1 hg he1, hko]
  · have h := setProvisionedConcurrencyConfig_nil_iff rm r1.ko r t2 hs hok
    rw [hf, hnm] at h
    exact h

/-- Claim C6 at a concrete input: the event-invoke read succeeds, the
provisioned-concurrency read finds nothing. -/
theorem setResourceAdditionalFields_nil_iff_not_found_witness :
    (liveAlias (some { emptyEventInvokeConfig with MaximumRetryAttempts := some 2 })
        none).Spec.ProvisionedConcurrencyConfig = none ↔
      ∃ e, emptyDestinationsManager.sdkapi.GetProvisionedConcurrencyConfigWithContext
        { FunctionName := (liveAlias (some emptyEventInvokeConfig) none).Spec.FunctionName
          Qualifier := (liveAlias (some emptyEventInvokeConfig) none).Spec.Name } = .error e ∧
        provisionedConcurrencyNotFound e = true :=
  (setResourceAdditionalFields_nil_iff_not_found emptyDestinationsManager
    (liveAlias (some emptyEventInvokeConfig) none)
    { err := none
      ko := liveAlias (some { emptyEventInvokeConfig with MaximumRetryAttempts := some 2 }) none }
    (eventInvokeReadTrace none ++
      provisionedConcurrencyReadTrace
        (some (.aws "ProvisionedConcurrencyConfigNotFoundException" "no config")))
    (by decide) rfl).2

/-- Claim C7: on a successful read `setProvisionedConcurrencyConfig` returns no
error and leaves a non-nil block whose count is the response's
`RequestedProvisionedConcurrentExecutions`; a second target that differs only in
its prior block, read with a second response that has the same requested count
(and any allocated and available counts), ends in the same result. -/
theorem setProvisionedConcurrencyConfig_of_ok (rm rm2 : resourceManager)
    (ko ko2 : svcapitypes.Alias) (out out2 : svcsdk.GetProvisionedConcurrencyConfigOutput)
    (hread : rm.sdkapi.GetProvisionedConcurrencyConfigWithContext
      { FunctionName := ko.Spec.FunctionName, Qualifier := ko.Spec.Name } = .ok out)
    (hread2 : rm2.sdkapi.GetProvisionedConcurrencyConfigWithContext
      { FunctionName := ko2.Spec.FunctionName, Qualifier := ko2.Spec.Name } = .ok out2)
    (hreq : out2.RequestedProvisionedConcurrentExecutions =
      out.RequestedProvisionedConcurrentExecutions)
    (heic : ko2.Spec.FunctionEventInvokeConfig = ko.Spec.FunctionEventInvokeConfig)
    (hfn : ko2.Spec.FunctionName = ko.Spec.FunctionName)
    (hnm : ko2.Spec.Name = ko.Spec.Name) :
    ∃ r trace, setProvisionedConcurrencyConfig rm ko = .returned r trace ∧
      r.err = none ∧
      r.ko.Spec.ProvisionedConcurrencyConfig =
        some { ProvisionedConcurrentExecutions :=
          out.RequestedProvisionedConcurrentExecutions } ∧
      setProvisionedConcurrencyConfig rm2 ko2 = .returned r trace := by
  obtain ⟨⟨eic, fn, nm, pc⟩⟩ := ko
  obtain ⟨⟨eic2, fn2, nm2, pc2⟩⟩ := ko2
  simp only at heic hfn hnm hread hread2
  subst heic
  subst hfn
  subst hnm
  refine ⟨{ err := none
            ko := { Spec :=
              { FunctionEventInvokeConfig := eic2
                FunctionName := fn2
                Name := nm2
                ProvisionedConcurrencyConfig := some { ProvisionedConcurrentExecutions :=
                  out.RequestedProvisionedConcurrentExecutions } } } },
    [Event.apiCall (.GetProvisionedConcurrencyConfig { FunctionName := fn2, Qualifier := nm2 }),
      Event.RecordAPICall "GET" "GetProvisionedConcurrencyConfig" none], ?_, rfl, rfl, ?_⟩
  · simp [setProvisionedConcurrencyConfig, hread, errOf]
  · simp [setProvisionedConcurrencyConfig, hread2, hreq, errOf]

/-- Claim C7 at a concrete input: requested 5 with allocated 3 and available 2 on
a target without a block, against requested 5 with allocated 5 and available 5
on a target holding 9. -/
theorem setProvisionedConcurrencyConfig_of_ok_witness :
    ∃ r trace,
      setProvisionedConcurrencyConfig
          (concurrencyManager (concurrencyResponse (some 5) (some 3) (some 2)))
          (liveAlias none none) = .returned r trace ∧
      r.err = none ∧
      r.ko.Spec.ProvisionedConcurrencyConfig =
        some { ProvisionedConcurrentExecutions :=
          (concurrencyResponse (some 5) (some 3)
            (some 2)).RequestedProvisionedConcurrentExecutions } ∧
      setProvisionedConcurrencyConfig
          (concurrencyManager (concurrencyResponse (some 5) (some 5) (some 5)))
          (liveAlias none (some { ProvisionedConcurrentExecutions := some 9 })) =
        .returned r trace :=
  setProvisionedConcurrencyConfig_of_ok
    (concurrencyManager (concurrencyResponse (some 5) (some 3) (some 2)))
    (concurrencyManager (concurrencyResponse (some 5) (some 5) (some 5)))
    (liveAlias none none)
    (liveAlias none (some { ProvisionedConcurrentExecutions := some 9 }))
    (concurrencyResponse (some 5) (some 3) (some 2))
    (concurrencyResponse (some 5) (some 5) (some 5)) rfl rfl rfl rfl rfl rfl

/-- Claim C8: for each of the two readers, when its read fails with an error
that is not an AWS error carrying one of that reader's not-found codes, the
reader returns exactly that error and leaves the target as it was. -/
theorem readers_propagate_other_errors (rm : resourceManager) (ko : svcapitypes.Alias) :
    (∀ e, rm.sdkapi.GetProvisionedConcurrencyConfigWithContext
          { FunctionName := ko.Spec.FunctionName, Qualifier := ko.Spec.Name } = .error e →
        (∀ code message, e = Error.aws code message →
          code ≠ "ProvisionedConcurrencyConfigNotFoundException" ∧
            code ≠ "ResourceNotFoundException") →
        ∃ trace, setProvisionedConcurrencyConfig rm ko =
          .returned { err := some e, ko := ko } trace) ∧
    (∀ e, rm.sdkapi.GetFunctionEventInvokeConfigWithContext
          { FunctionName := ko.Spec.FunctionName, Qualifier := ko.Spec.Name } = .error e →
        (∀ code message, e = Error.aws code message →
          code ≠ "EventInvokeConfigNotFoundException" ∧
            code ≠ "ResourceNotFoundException") →
        ∃ trace, getFunctionEventInvokeConfig rm ko =
          .returned { err := some e, ko := ko } trace) := by
  constructor
  · intro e hread hcode
    have hnf : provisionedConcurrencyNotFound e = false := by
      cases e with
      | aws code message =>
        obtain ⟨h1, h2⟩ := hcode code message rfl
        simp [provisionedConcurrencyNotFound, ackerr.AWSError, h1, h2]
      | other message => simp [provisionedConcurrencyNotFound, ackerr.AWSError]
    simp [setProvisionedConcurrencyConfig, hread, hnf]
  · intro e hread hcode
    have hnf : eventInvokeConfigNotFound e = false := by
      cases e with
      | aws code message =>
        obtain ⟨h1, h2⟩ := hcode code message rfl
        simp [eventInvokeConfigNotFound, ackerr.AWSError, h1, h2]
      | other message => simp [eventInvokeConfigNotFound, ackerr.AWSError]
    simp [getFunctionEventInvokeConfig, hread, hnf]

/-- Claim C8 at a concrete input: a throttled provisioned-concurrency read and an
event-invoke read that fails outside the SDK, on a target holding both blocks. -/
theorem readers_propagate_other_errors_witness :
    (∃ trace, setProvisionedConcurrencyConfig
        (failingManager (.other "connection reset")
          (.aws "TooManyRequestsException" "rate exceeded"))
        (liveAlias (some (bothDestinationsBlock "arn:a" "arn:b"))
          (some { ProvisionedConcurrentExecutions := some 5 })) =
      .returned
        { err := some (.aws "TooManyRequestsException" "rate exceeded")
          ko := liveAlias (some (bothDestinationsBlock "arn:a" "arn:b"))
            (some { ProvisionedConcurrentExecutions := some 5 }) } trace) ∧
    (∃ trace, getFunctionEventInvokeConfig
        (failingManager (.other "connection reset")
          (.aws "TooManyRequestsException" "rate exceeded"))
        (liveAlias (some (bothDestinationsBlock "arn:a" "arn:b"))
          (some { ProvisionedConcurrentExecutions := some 5 })) =
      .returned
        { err := some (.other "connection reset")
          ko := liveAlias (some (bothDestinationsBlock "arn:a" "arn:b"))
            (some { ProvisionedConcurrentExecutions := some 5 }) } trace) :=
  ⟨(readers_propagate_other_errors
      (failingManager (.other "connection reset")
        (.aws "TooManyRequestsException" "rate exceeded"))
      (liveAlias (some (bothDestinationsBlock "arn:a" "arn:b"))
        (some { ProvisionedConcurrentExecutions := some 5 }))).1
      (.aws "TooManyRequestsException" "rate exceeded") rfl
      (by intro code message h; cases h; exact ⟨by decide, by decide⟩),
   (readers_propagate_other_errors
      (failingManager (.other "connection reset")
        (.aws "TooManyRequestsException" "rate exceeded"))
      (liveAlias (some (bothDestinationsBlock "arn:a" "arn:b"))
        (some { ProvisionedConcurrentExecutions := some 5 }))).2
      (.other "connection reset") rfl
      (by intro code message h; cases h)⟩

/-- Claim C9: when the target's event-invoke block is non-nil and a successful
read reports no `DestinationConfig`, `getFunctionEventInvokeConfig` returns no
error and leaves the block with `DestinationConfig` nil and
`MaximumRetryAttempts` nil (and the response's `MaximumEventAgeInSeconds`),
whatever retry attempts the response carries and whatever the target held. -/
theorem getFunctionEventInvokeConfig_no_destinations (rm : resourceManager)
    (ko : svcapitypes.Alias) (eic0 : svcapitypes.PutFunctionEventInvokeConfigInput)
    (out : svcsdk.GetFunctionEventInvokeConfigOutput)
    (htarget : ko.Spec.FunctionEventInvokeConfig = some eic0)
    (hread : rm.sdkapi.GetFunctionEventInvokeConfigWithContext
      { FunctionName := ko.Spec.FunctionName, Qualifier := ko.Spec.Name } = .ok out)
    (hdc : out.DestinationConfig = none) :
    ∃ trace, getFunctionEventInvokeConfig rm ko =
      .returned
        { err := none
          ko := { Spec :=
            { FunctionEventInvokeConfig := some
                { DestinationConfig := none
                  MaximumEventAgeInSeconds := out.MaximumEventAgeInSeconds
                  MaximumRetryAttempts := none }
              FunctionName := ko.Spec.FunctionName
              Name := ko.Spec.Name
              ProvisionedConcurrencyConfig := ko.Spec.ProvisionedConcurrencyConfig } } }
        trace := by
  rw [getFunctionEventInvokeConfig_of_ok rm ko out hread]
  have hn : normalizeEventInvokeConfig out ko = some
      { Spec :=
        { FunctionEventInvokeConfig := some
            { DestinationConfig := none
              MaximumEventAgeInSeconds := out.MaximumEventAgeInSeconds
              MaximumRetryAttempts := none }
          FunctionName := ko.Spec.FunctionName
          Name := ko.Spec.Name
          ProvisionedConcurrencyConfig := ko.Spec.ProvisionedConcurrencyConfig } } := by
    cases hmea : out.MaximumEventAgeInSeconds <;>
      simp [normalizeEventInvokeConfig, normalizeDestinationConfig,
        normalizeMaximumEventAgeInSeconds, normalizeMaximumRetryAttempts,
        assignDestinationConfig, assignMaximumEventAgeInSeconds, assignMaximumRetryAttempts,
        htarget, hdc, hmea]
  simp [hn]

/-- Claim C9 at a concrete input: a target with both destinations and one retry
attempt, and a response without `DestinationConfig` carrying three. -/
theorem getFunctionEventInvokeConfig_no_destinations_witness :
    ∃ trace, getFunctionEventInvokeConfig
        ⟨fixedReads (.ok noDestinationsResponse) noProvisionedConcurrency⟩
        (liveAlias (some (bothDestinationsBlock "arn:a" "arn:b")) none) =
      .returned
        { err := none
          ko := liveAlias (some
            { DestinationConfig := none
              MaximumEventAgeInSeconds := some 60
              MaximumRetryAttempts := none }) none }
        trace :=
  getFunctionEventInvokeConfig_no_destinations
    ⟨fixedReads (.ok noDestinationsResponse) noProvisionedConcurrency⟩
    (liveAlias (some (bothDestinationsBlock "arn:a" "arn:b")) none)
    (bothDestinationsBlock "arn:a" "arn:b") noDestinationsResponse rfl rfl rfl

/-- Claim C10 fails on the code: on a target whose two destinations are set and
a response that reports only an `OnFailure` destination, the reader returns no
error with a non-nil `DestinationConfig` whose `OnSuccess.Destination` is still
the value the target held before the read. -/
theorem getFunctionEventInvokeConfig_keeps_stale_destination :
    getFunctionEventInvokeConfig
        ⟨fixedReads (.ok deadLetterResponse) noProvisionedConcurrency⟩
        (liveAlias (some (bothDestinationsBlock "arn:topic:old" "arn:queue:old")) none) =
      .returned
        { err := none
          ko := liveAlias (some
            { DestinationConfig := some
                { OnFailure := some { Destination := some "arn:topic:dead-letter" }
                  OnSuccess := some { Destination := some "arn:queue:old" } }
              MaximumEventAgeInSeconds := none
              MaximumRetryAttempts := none }) none }
        (eventInvokeReadTrace none) := by
  rfl

/-! ## Destinations, order of the composite read -/

/-- The event-invoke reader issues its read and records it, whatever happens
afterwards. -/
theorem getFunctionEventInvokeConfig_trace (rm : resourceManager) (ko : svcapitypes.Alias) :
    (getFunctionEventInvokeConfig rm ko).trace =
      [Event.apiCall (.GetFunctionEventInvokeConfig
        { FunctionName := ko.Spec.FunctionName, Qualifier := ko.Spec.Name }),
       Event.RecordAPICall "GET" "GetFunctionEventInvokeConfig"
        (errOf (rm.sdkapi.GetFunctionEventInvokeConfigWithContext
          { FunctionName := ko.Spec.FunctionName, Qualifier := ko.Spec.Name }))] := by
  cases hresp : rm.sdkapi.GetFunctionEventInvokeConfigWithContext
      { FunctionName := ko.Spec.FunctionName, Qualifier := ko.Spec.Name } with
  | error e =>
    cases hnf : eventInvokeConfigNotFound e <;>
      simp [getFunctionEventInvokeConfig, hresp, hnf, Outcome.trace]
  | ok out =>
    rw [getFunctionEventInvokeConfig_of_ok rm ko out hresp]
    cases normalizeEventInvokeConfig out ko <;> simp [Outcome.trace, errOf]

/-- The provisioned-concurrency reader issues its read and records it. -/
theorem setProvisionedConcurrencyConfig_trace (rm : resourceManager)
    (ko : svcapitypes.Alias) :
    (setProvisionedConcurrencyConfig rm ko).trace =
      [Event.apiCall (.GetProvisionedConcurrencyConfig
        { FunctionName := ko.Spec.FunctionName, Qualifier := ko.Spec.Name }),
       Event.RecordAPICall "GET" "GetProvisionedConcurrencyConfig"
        (errOf (rm.sdkapi.GetProvisionedConcurrencyConfigWithContext
          { FunctionName := ko.Spec.FunctionName, Qualifier := ko.Spec.Name }))] := by
  cases hresp : rm.sdkapi.GetProvisionedConcurrencyConfigWithContext
      { FunctionName := ko.Spec.FunctionName, Qualifier := ko.Spec.Name } with
  | error e =>
    cases hnf : provisionedConcurrencyNotFound e <;>
      simp [setProvisionedConcurrencyConfig, hresp, hnf, Outcome.trace]
  | ok out => simp [setProvisionedConcurrencyConfig, hresp, Outcome.trace]

/-- Claim C11: when the target's event-invoke block, its `DestinationConfig` and
its `OnFailure` are non-nil, and a successful read reports a `DestinationConfig`
with `OnFailure.Destination = d` and no `OnSuccess`, the reader returns no error
with `OnFailure.Destination = d`, `OnSuccess` exactly as before the read, and
`MaximumRetryAttempts` (and `MaximumEventAgeInSeconds`) as in the response. -/
theorem getFunctionEventInvokeConfig_on_failure_only (rm : resourceManager)
    (ko : svcapitypes.Alias) (eic0 : svcapitypes.PutFunctionEventInvokeConfigInput)
    (dc0 : svcapitypes.DestinationConfig) (f0 : svcapitypes.OnFailure)
    (out : svcsdk.GetFunctionEventInvokeConfigOutput) (odc : svcsdk.DestinationConfig)
    (d : String)
    (htarget : ko.Spec.FunctionEventInvokeConfig = some eic0)
    (hdc0 : eic0.DestinationConfig = some dc0)
    (hf0 : dc0.OnFailure = some f0)
    (hread : rm.sdkapi.GetFunctionEventInvokeConfigWithContext
      { FunctionName := ko.Spec.FunctionName, Qualifier := ko.Spec.Name } = .ok out)
    (hodc : out.DestinationConfig = some odc)
    (hof : odc.OnFailure = some { Destination := some d })
    (hos : odc.OnSuccess = none) :
    ∃ trace, getFunctionEventInvokeConfig rm ko =
      .returned
        { err := none
          ko := { Spec :=
            { FunctionEventInvokeConfig := some
                { DestinationConfig := some
                    { OnFailure := some { Destination := some d }
                      OnSuccess := dc0.OnSuccess }
                  MaximumEventAgeInSeconds := out.MaximumEventAgeInSeconds
                  MaximumRetryAttempts := out.MaximumRetryAttempts }
              FunctionName := ko.Spec.FunctionName
              Name := ko.Spec.Name
              ProvisionedConcurrencyConfig := ko.Spec.ProvisionedConcurrencyConfig } } }
        trace := by
  rw [getFunctionEventInvokeConfig_of_ok rm ko out hread]
  have hn : normalizeEventInvokeConfig out ko = some
      { Spec :=
        { FunctionEventInvokeConfig := some
            { DestinationConfig := some
                { OnFailure := some { Destination := some d }
                  OnSuccess := dc0.OnSuccess }
              MaximumEventAgeInSeconds := out.MaximumEventAgeInSeconds
              MaximumRetryAttempts := out.MaximumRetryAttempts }
          FunctionName := ko.Spec.FunctionName
          Name := ko.Spec.Name
          ProvisionedConcurrencyConfig := ko.Spec.ProvisionedConcurrencyConfig } } := by
    cases hmea : out.MaximumEventAgeInSeconds <;>
      simp [normalizeEventInvokeConfig, normalizeDestinationConfig,
        normalizeMaximumEventAgeInSeconds, normalizeMaximumRetryAttempts,
        assignOnFailureDestination, assignMaximumEventAgeInSeconds,
        assignMaximumRetryAttempts, htarget, hdc0, hf0, hodc, hof, hos, hmea]
  simp [hn]

/-- Claim C11 at a concrete input: a target with both destinations set, and the
response `deadLetterRetryResponse`. -/
theorem getFunctionEventInvokeConfig_on_failure_only_witness :
    ∃ trace, getFunctionEventInvokeConfig deadLetterManager
        (liveAlias (some (bothDestinationsBlock "arn:topic:old" "arn:queue:done")) none) =
      .returned
        { err := none
          ko := liveAlias (some
            { DestinationConfig := some
                { OnFailure := some { Destination := some "arn:topic:dead-letter" }
                  OnSuccess := some { Destination := some "arn:queue:done" } }
              MaximumEventAgeInSeconds := none
              MaximumRetryAttempts := some 2 }) none }
        trace :=
  getFunctionEventInvokeConfig_on_failure_only deadLetterManager
    (liveAlias (some (bothDestinationsBlock "arn:topic:old" "arn:queue:done")) none)
    (bothDestinationsBlock "arn:topic:old" "arn:queue:done")
    { OnFailure := some { Destination := some "arn:topic:old" }
      OnSuccess := some { Destination := some "arn:queue:done" } }
    { Destination := some "arn:topic:old" }
    deadLetterRetryResponse
    { OnFailure := some { Destination := some "arn:topic:dead-letter" }, OnSuccess := none }
    "arn:topic:dead-letter" rfl rfl rfl rfl rfl rfl rfl

/-- Claim C12: `setResourceAdditionalFields` first runs the event-invoke reader.
If that reader returns an error, the composite returns it with the target as the
reader left it, the provisioned-concurrency block untouched and the event-invoke
read as its only remote call. Otherwise its result is that of
`setProvisionedConcurrencyConfig` run on the target the event-invoke reader left,
so that it returns no error only if both readers returned no error. -/
theorem setResourceAdditionalFields_order (rm : resourceManager) (ko : svcapitypes.Alias) :
    (∀ r1 t1 e, getFunctionEventInvokeConfig rm ko = .returned r1 t1 → r1.err = some e →
      setResourceAdditionalFields rm ko = .returned { err := some e, ko := r1.ko } t1 ∧
      r1.ko.Spec.ProvisionedConcurrencyConfig = ko.Spec.ProvisionedConcurrencyConfig ∧
      (setResourceAdditionalFields rm ko).calls =
        [Call.GetFunctionEventInvokeConfig
          { FunctionName := ko.Spec.FunctionName, Qualifier := ko.Spec.Name }]) ∧
    (∀ r1 t1, getFunctionEventInvokeConfig rm ko = .returned r1 t1 → r1.err = none →
      ∃ r2 t2, setProvisionedConcurrencyConfig rm r1.ko = .returned r2 t2 ∧
        setResourceAdditionalFields rm ko = .returned r2 (t1 ++ t2)) ∧
    (∀ r trace, setResourceAdditionalFields rm ko = .returned r trace → r.err = none →
      ∃ r1 t1 t2, getFunctionEventInvokeConfig rm ko = .returned r1 t1 ∧ r1.err = none ∧
        setProvisionedConcurrencyConfig rm r1.ko = .returned r t2) := by
  refine ⟨?_, ?_, ?_⟩
  · intro r1 t1 e h he
    have ht := getFunctionEventInvokeConfig_trace rm ko
    rw [h] at ht
    simp only [Outcome.trace] at ht
    have hrun : setResourceAdditionalFields rm ko =
        .returned { err := some e, ko := r1.ko } t1 := by
      simp only [setResourceAdditionalFields, h, he]
    refine ⟨hrun, (getFunctionEventInvokeConfig_frame rm ko r1 t1 h).2.2, ?_⟩
    rw [hrun, ht]
    simp [Outcome.calls, Outcome.trace, Outcome.callsOf]
  · intro r1 t1 h he
    obtain ⟨r2, t2, hpc, -⟩ := setProvisionedConcurrencyConfig_frame rm r1.ko
    refine ⟨r2, t2, hpc, ?_⟩
    obtain ⟨err2, ko2⟩ := r2
    simp only [setResourceAdditionalFields, h, he, hpc]
    cases err2 <;> rfl
  · intro r trace h hok
    obtain ⟨r1, t1, t2, h1, he, h2, -⟩ :=
      setResourceAdditionalFields_returned rm ko r trace h hok
    exact ⟨r1, t1, t2, h1, he, h2⟩

/-- Claim C12 at a concrete input: the event-invoke read fails outside the SDK,
so the composite returns that error after one remote call. -/
theorem setResourceAdditionalFields_order_witness :
    setResourceAdditionalFields
        (failingManager (.other "connection reset")
          (.aws "TooManyRequestsException" "rate exceeded"))
        (liveAlias (some (failureOnlyBlock none))
          (some { ProvisionedConcurrentExecutions := some 5 })) =
      .returned
        { err := some (.other "connection reset")
          ko := liveAlias (some (failureOnlyBlock none))
            (some { ProvisionedConcurrentExecutions := some 5 }) }
        (eventInvokeReadTrace (some (.other "connection reset"))) ∧
    (liveAlias (some (failureOnlyBlock none))
        (some { ProvisionedConcurrentExecutions := some 5 })).Spec.ProvisionedConcurrencyConfig =
      (liveAlias (some (failureOnlyBlock none))
        (some { ProvisionedConcurrentExecutions := some 5 })).Spec.ProvisionedConcurrencyConfig ∧
    (setResourceAdditionalFields
        (failingManager (.other "connection reset")
          (.aws "TooManyRequestsException" "rate exceeded"))
        (liveAlias (some (failureOnlyBlock none))
          (some { ProvisionedConcurrentExecutions := some 5 }))).calls =
      [Call.GetFunctionEventInvokeConfig
        { FunctionName := (liveAlias (some (failureOnlyBlock none))
            (some { ProvisionedConcurrentExecutions := some 5 })).Spec.FunctionName
          Qualifier := (liveAlias (some (failureOnlyBlock none))
            (some { ProvisionedConcurrentExecutions := some 5 })).Spec.Name }] :=
  (setResourceAdditionalFields_order
    (failingManager (.other "connection reset")
      (.aws "TooManyRequestsException" "rate exceeded"))
    (liveAlias (some (failureOnlyBlock none))
      (some { ProvisionedConcurrentExecutions := some 5 }))).1
    { err := some (.other "connection reset")
      ko := liveAlias (some (failureOnlyBlock none))
        (some { ProvisionedConcurrentExecutions := some 5 }) }
    (eventInvokeReadTrace (some (.other "connection reset")))
    (.other "connection reset") rfl rfl

/-! ## The event-invoke write hook, errors of the write hooks, telemetry -/

/-- The request built by lines 36-64 is the mirror of the desired block. -/
theorem syncEventInvokeConfigInput_eq_mirrored (functionName qualifier : String)
    (spec : svcapitypes.AliasSpec) :
    syncEventInvokeConfigInput functionName qualifier spec =
      mirroredEventInvokeConfigInput functionName qualifier spec.FunctionEventInvokeConfig := by
  obtain ⟨eic, fn, nm, pc⟩ := spec
  rcases eic with _ | ⟨⟨dc, mea, mra⟩⟩
  · rfl
  · rcases dc with _ | ⟨⟨_ | ⟨⟨_ | d1⟩⟩, _ | ⟨⟨_ | d2⟩⟩⟩⟩ <;>
      rcases mea with _ | a <;> rcases mra with _ | b <;> rfl

/-- With `FunctionName` and `Name` present the event-invoke write hook issues its
put, records it and returns according to the answer. -/
theorem syncEventInvokeConfig_eq (rm : resourceManager) (r : resource)
    (functionName name : String)
    (hf : r.ko.Spec.FunctionName = some functionName)
    (hn : r.ko.Spec.Name = some name) :
    syncEventInvokeConfig rm r =
      .returned
        (match rm.sdkapi.PutFunctionEventInvokeConfigWithContext
            (syncEventInvokeConfigInput functionName name r.ko.Spec) with
          | some e => (none, some e)
          | none => (some r, none))
        [Event.apiCall (.PutFunctionEventInvokeConfig
          (syncEventInvokeConfigInput functionName name r.ko.Spec)),
         Event.RecordAPICall "UPDATE" "SyncEventInvokeConfig"
          (rm.sdkapi.PutFunctionEventInvokeConfigWithContext
            (syncEventInvokeConfigInput functionName name r.ko.Spec))] := by
  simp only [syncEventInvokeConfig, hf, hn]
  cases rm.sdkapi.PutFunctionEventInvokeConfigWithContext
    (syncEventInvokeConfigInput functionName name r.ko.Spec) <;> rfl

/-- Claim C13: with `FunctionName` and `Name` present, `syncEventInvokeConfig`
returns after issuing exactly one remote call, a `PutFunctionEventInvokeConfig`
whose `FunctionName` and `Qualifier` are the desired ones and whose optional
fields mirror the desired block: each is present exactly when the desired state
has it, with the same value, and none is present when the desired block is
nil. -/
theorem syncEventInvokeConfig_puts_mirror (rm : resourceManager) (r : resource)
    (functionName name : String)
    (hf : r.ko.Spec.FunctionName = some functionName)
    (hn : r.ko.Spec.Name = some name) :
    (syncEventInvokeConfig rm r).calls =
        [Call.PutFunctionEventInvokeConfig
          (mirroredEventInvokeConfigInput functionName name
            r.ko.Spec.FunctionEventInvokeConfig)] ∧
      (r.ko.Spec.FunctionEventInvokeConfig = none →
        (syncEventInvokeConfig rm r).calls =
          [Call.PutFunctionEventInvokeConfig
            { DestinationConfig := none
              FunctionName := some functionName
              MaximumEventAgeInSeconds := none
              MaximumRetryAttempts := none
              Qualifier := some name }]) ∧
      ∃ value trace, syncEventInvokeConfig rm r = .returned value trace := by
  have hcalls : (syncEventInvokeConfig rm r).calls =
      [Call.PutFunctionEventInvokeConfig
        (mirroredEventInvokeConfigInput functionName name
          r.ko.Spec.FunctionEventInvokeConfig)] := by
    rw [syncEventInvokeConfig_eq rm r functionName name hf hn,
      syncEventInvokeConfigInput_eq_mirrored]
    simp [Outcome.calls, Outcome.trace, Outcome.callsOf]
  refine ⟨hcalls, ?_, ?_⟩
  · intro hnil
    rw [hcalls, hnil]
    rfl
  · rw [syncEventInvokeConfig_eq rm r functionName name hf hn]
    exact ⟨_, _, rfl⟩

/-- Claim C13 at a concrete input: a desired block with an `OnFailure` that has no
destination, no `OnSuccess`, an event age and one retry attempt. -/
theorem syncEventInvokeConfig_puts_mirror_witness :
    (syncEventInvokeConfig ⟨throttledSdk⟩ ⟨liveAlias (some (failureOnlyBlock none)) none⟩).calls =
      [Call.PutFunctionEventInvokeConfig
        { DestinationConfig := some { OnFailure := some { Destination := none }, OnSuccess := none }
          FunctionName := some "orders"
          MaximumEventAgeInSeconds := some 3600
          MaximumRetryAttempts := some 1
          Qualifier := some "live" }] :=
  (syncEventInvokeConfig_puts_mirror ⟨throttledSdk⟩
    ⟨liveAlias (some (failureOnlyBlock none)) none⟩ "orders" "live" rfl rfl).1

/-- With `FunctionName` and `Name` present and the configuration removed, the
provisioned-concurrency write hook issues its delete, records it and returns the
answer. -/
theorem updateProvisionedConcurrency_delete_eq (rm : resourceManager) (desired : resource)
    (functionName name : String)
    (hf : desired.ko.Spec.FunctionName = some functionName)
    (hn : desired.ko.Spec.Name = some name)
    (hrem : provisionedConcurrencyRemoved desired.ko.Spec = true) :
    updateProvisionedConcurrency rm desired =
      .returned
        (rm.sdkapi.DeleteProvisionedConcurrencyConfigWithContext
          { FunctionName := some functionName, Qualifier := some name })
        [Event.apiCall (.DeleteProvisionedConcurrencyConfig
          { FunctionName := some functionName, Qualifier := some name }),
         Event.RecordAPICall "DELETE" "DeleteProvisionedConcurrency"
          (rm.sdkapi.DeleteProvisionedConcurrencyConfigWithContext
            { FunctionName := some functionName, Qualifier := some name })] := by
  simp only [updateProvisionedConcurrency, hrem, hf, hn, if_true]
  cases rm.sdkapi.DeleteProvisionedConcurrencyConfigWithContext
    { FunctionName := some functionName, Qualifier := some name } <;> rfl

/-- With `FunctionName`, `Name` and a count present, the provisioned-concurrency
write hook issues its put, records it and returns the answer. -/
theorem updateProvisionedConcurrency_put_eq (rm : resourceManager) (desired : resource)
    (functionName name : String) (pc : svcapitypes.PutProvisionedConcurrencyConfigInput)
    (n : Int)
    (hf : desired.ko.Spec.FunctionName = some functionName)
    (hn : desired.ko.Spec.Name = some name)
    (hpc : desired.ko.Spec.ProvisionedConcurrencyConfig = some pc)
    (hcount : pc.ProvisionedConcurrentExecutions = some n) :
    updateProvisionedConcurrency rm desired =
      .returned
        (rm.sdkapi.PutProvisionedConcurrencyConfigWithContext
          { FunctionName := some functionName
            ProvisionedConcurrentExecutions := some n
            Qualifier := some name })
        [Event.apiCall (.PutProvisionedConcurrencyConfig
          { FunctionName := some functionName
            ProvisionedConcurrentExecutions := some n
            Qualifier := some name }),
         Event.RecordAPICall "UPDATE" "UpdateProvisionedConcurrency"
          (rm.sdkapi.PutProvisionedConcurrencyConfigWithContext
            { FunctionName := some functionName
              ProvisionedConcurrentExecutions := some n
              Qualifier := some name })] := by
  have hrem : provisionedConcurrencyRemoved desired.ko.Spec = false := by
    simp [provisionedConcurrencyRemoved, hpc, hcount]
  simp only [updateProvisionedConcurrency, hrem, hf, hn, hpc, hcount]
  cases rm.sdkapi.PutProvisionedConcurrencyConfigWithContext
    { FunctionName := some functionName
      ProvisionedConcurrentExecutions := some n
      Qualifier := some name } <;> rfl

/-- A desired state either has its provisioned concurrency removed or holds a
count. -/
theorem provisionedConcurrencyRemoved_or_count (spec : svcapitypes.AliasSpec) :
    provisionedConcurrencyRemoved spec = true ∨
      ∃ pc n, spec.ProvisionedConcurrencyConfig = some pc ∧
        pc.ProvisionedConcurrentExecutions = some n := by
  obtain ⟨eic, fn, nm, pc⟩ := spec
  rcases pc with _ | ⟨⟨_ | n⟩⟩
  · left; rfl
  · left; rfl
  · right; exact ⟨_, n, rfl, rfl⟩

/-- Without `FunctionName` or without `Name` both write hooks fault before any
remote call. -/
theorem write_hooks_fault_without_key (rm : resourceManager) (r : resource)
    (h : r.ko.Spec.FunctionName = none ∨ r.ko.Spec.Name = none) :
    syncEventInvokeConfig rm r = .panicked [] ∧
      updateProvisionedConcurrency rm r = .panicked [] := by
  obtain ⟨⟨⟨eic, fn, nm, pc⟩⟩⟩ := r
  simp only at h
  constructor
  · rcases h with h | h
    · subst h
      rfl
    · subst h
      cases fn <;> rfl
  · cases hrem : provisionedConcurrencyRemoved
        { FunctionEventInvokeConfig := eic, FunctionName := fn, Name := nm,
          ProvisionedConcurrencyConfig := pc } <;>
      rcases h with h | h <;> subst h <;>
      simp only [updateProvisionedConcurrency, hrem, if_true, Bool.false_eq_true, if_false] <;>
      cases fn <;> rfl

/-- Claim C14: neither write hook ever issues a second remote call; and with
`FunctionName` and `Name` present, `syncEventInvokeConfig` returns `(nil, e)`
when its single put fails with `e` and `(r, nil)` with the input resource when
it succeeds, while `updateProvisionedConcurrency` returns exactly the answer of
its single delete or put: `e` when it fails with `e`, nil when it succeeds. -/
theorem write_hooks_propagate_errors (rm : resourceManager) (r : resource) :
    ((syncEventInvokeConfig rm r).calls.length ≤ 1 ∧
      (updateProvisionedConcurrency rm r).calls.length ≤ 1) ∧
    (∀ functionName name, r.ko.Spec.FunctionName = some functionName →
      r.ko.Spec.Name = some name →
      (∃ input, (syncEventInvokeConfig rm r).calls = [Call.PutFunctionEventInvokeConfig input] ∧
        (∀ e, rm.sdkapi.PutFunctionEventInvokeConfigWithContext input = some e →
          ∃ trace, syncEventInvokeConfig rm r = .returned (none, some e) trace) ∧
        (rm.sdkapi.PutFunctionEventInvokeConfigWithContext input = none →
          ∃ trace, syncEventInvokeConfig rm r = .returned (some r, none) trace)) ∧
      ((∃ input, (updateProvisionedConcurrency rm r).calls =
            [Call.DeleteProvisionedConcurrencyConfig input] ∧
          ∃ trace, updateProvisionedConcurrency rm r =
            .returned (rm.sdkapi.DeleteProvisionedConcurrencyConfigWithContext input) trace) ∨
        (∃ input, (updateProvisionedConcurrency rm r).calls =
            [Call.PutProvisionedConcurrencyConfig input] ∧
          ∃ trace, updateProvisionedConcurrency rm r =
            .returned (rm.sdkapi.PutProvisionedConcurrencyConfigWithContext input) trace))) := by
  have hmain : ∀ functionName name, r.ko.Spec.FunctionName = some functionName →
      r.ko.Spec.Name = some name →
      (∃ input, (syncEventInvokeConfig rm r).calls = [Call.PutFunctionEventInvokeConfig input] ∧
        (∀ e, rm.sdkapi.PutFunctionEventInvokeConfigWithContext input = some e →
          ∃ trace, syncEventInvokeConfig rm r = .returned (none, some e) trace) ∧
        (rm.sdkapi.PutFunctionEventInvokeConfigWithContext input = none →
          ∃ trace, syncEventInvokeConfig rm r = .returned (some r, none) trace)) ∧
      ((∃ input, (updateProvisionedConcurrency rm r).calls =
            [Call.DeleteProvisionedConcurrencyConfig input] ∧
          ∃ trace, updateProvisionedConcurrency rm r =
            .returned (rm.sdkapi.DeleteProvisionedConcurrencyConfigWithContext input) trace) ∨
        (∃ input, (updateProvisionedConcurrency rm r).calls =
            [Call.PutProvisionedConcurrencyConfig input] ∧
          ∃ trace, updateProvisionedConcurrency rm r =
            .returned (rm.sdkapi.PutProvisionedConcurrencyConfigWithContext input) trace)) := by
    intro functionName name hf hn
    constructor
    · have hs := syncEventInvokeConfig_eq rm r functionName name hf hn
      refine ⟨syncEventInvokeConfigInput functionName name r.ko.Spec, ?_, ?_, ?_⟩
      · rw [hs]
        simp [Outcome.calls, Outcome.trace, Outcome.callsOf]
      · intro e he
        rw [hs, he]
        exact ⟨_, rfl⟩
      · intro he
        rw [hs, he]
        exact ⟨_, rfl⟩
    · rcases provisionedConcurrencyRemoved_or_count r.ko.Spec with hrem | ⟨pc, n, hpc, hcount⟩
      · left
        have hu := updateProvisionedConcurrency_delete_eq rm r functionName name hf hn hrem
        refine ⟨{ FunctionName := some functionName, Qualifier := some name }, ?_, _, hu⟩
        rw [hu]
        simp [Outcome.calls, Outcome.trace, Outcome.callsOf]
      · right
        have hu := updateProvisionedConcurrency_put_eq rm r functionName name pc n hf hn hpc
          hcount
        refine ⟨{ FunctionName := some functionName
                  ProvisionedConcurrentExecutions := some n
                  Qualifier := some name }, ?_, _, hu⟩
        rw [hu]
        simp [Outcome.calls, Outcome.trace, Outcome.callsOf]
  refine ⟨?_, hmain⟩
  cases hfn : r.ko.Spec.FunctionName with
  | none =>
    obtain ⟨h1, h2⟩ := write_hooks_fault_without_key rm r (Or.inl hfn)
    rw [h1, h2]
    simp [Outcome.calls, Outcome.trace, Outcome.callsOf]
  | some functionName =>
    cases hnm : r.ko.Spec.Name with
    | none =>
      obtain ⟨h1, h2⟩ := write_hooks_fault_without_key rm r (Or.inr hnm)
      rw [h1, h2]
      simp [Outcome.calls, Outcome.trace, Outcome.callsOf]
    | some name =>
      obtain ⟨⟨input, hc, -⟩, hu⟩ := hmain functionName name hfn hnm
      constructor
      · rw [hc]; simp
      · rcases hu with ⟨input2, hc2, -⟩ | ⟨input2, hc2, -⟩ <;> rw [hc2] <;> simp

/-- Claim C14 at a concrete input: every write fails with a throttling error;
the event-invoke hook hands it back as `(nil, e)`. -/
theorem write_hooks_propagate_errors_witness :
    ∃ input,
      (syncEventInvokeConfig ⟨failingWrites (.aws "TooManyRequestsException" "rate exceeded")⟩
        ⟨liveAlias (some (failureOnlyBlock none)) none⟩).calls =
          [Call.PutFunctionEventInvokeConfig input] ∧
      (∀ e, (failingWrites (.aws "TooManyRequestsException"
            "rate exceeded")).PutFunctionEventInvokeConfigWithContext input = some e →
        ∃ trace,
          syncEventInvokeConfig
              ⟨failingWrites (.aws "TooManyRequestsException" "rate exceeded")⟩
              ⟨liveAlias (some (failureOnlyBlock none)) none⟩ =
            .returned (none, some e) trace) ∧
      ((failingWrites (.aws "TooManyRequestsException"
            "rate exceeded")).PutFunctionEventInvokeConfigWithContext input = none →
        ∃ trace,
          syncEventInvokeConfig
              ⟨failingWrites (.aws "TooManyRequestsException" "rate exceeded")⟩
              ⟨liveAlias (some (failureOnlyBlock none)) none⟩ =
            .returned (some ⟨liveAlias (some (failureOnlyBlock none)) none⟩, none) trace) :=
  ((write_hooks_propagate_errors
    ⟨failingWrites (.aws "TooManyRequestsException" "rate exceeded")⟩
    ⟨liveAlias (some (failureOnlyBlock none)) none⟩).2 "orders" "live" rfl rfl).1

/-! ## Frame, faults, round trip -/

/-- The normalization with the target kept agrees with the normalization of the
hook: it faults exactly when the other one does, and otherwise ends on the same
target. -/
theorem normalizeEventInvokeConfig_eq_written (out : svcsdk.GetFunctionEventInvokeConfigOutput)
    (ko : svcapitypes.Alias) :
    normalizeEventInvokeConfig out ko =
      if (normalizeEventInvokeConfigWritten out ko).faulted then none
      else some (normalizeEventInvokeConfigWritten out ko).ko := by
  obtain ⟨⟨eic, fn, nm, pc⟩⟩ := ko
  obtain ⟨odc, arn, omea, omra⟩ := out
  rcases eic with _ | ⟨⟨dc, mea, mra⟩⟩
  · rcases odc with _ | ⟨⟨_ | ⟨⟨_ | d1⟩⟩, _ | ⟨⟨_ | d2⟩⟩⟩⟩ <;> rcases omea with _ | a <;> rfl
  · rcases odc with _ | ⟨⟨_ | ⟨⟨_ | d1⟩⟩, _ | ⟨⟨_ | d2⟩⟩⟩⟩ <;>
      rcases dc with _ | ⟨⟨_ | f, _ | g⟩⟩ <;> rcases omea with _ | a <;> rfl

/-- Whatever the normalization wrote before it completed or faulted, it wrote
inside `Spec.FunctionEventInvokeConfig`. -/
theorem normalizeEventInvokeConfigWritten_frame
    (out : svcsdk.GetFunctionEventInvokeConfigOutput) (ko : svcapitypes.Alias) :
    (normalizeEventInvokeConfigWritten out ko).ko =
      { Spec :=
        { FunctionEventInvokeConfig :=
            (normalizeEventInvokeConfigWritten out ko).ko.Spec.FunctionEventInvokeConfig
          FunctionName := ko.Spec.FunctionName
          Name := ko.Spec.Name
          ProvisionedConcurrencyConfig := ko.Spec.ProvisionedConcurrencyConfig } } := by
  obtain ⟨⟨eic, fn, nm, pc⟩⟩ := ko
  obtain ⟨odc, arn, omea, omra⟩ := out
  rcases eic with _ | ⟨⟨dc, mea, mra⟩⟩
  · rcases odc with _ | ⟨⟨_ | ⟨⟨_ | d1⟩⟩, _ | ⟨⟨_ | d2⟩⟩⟩⟩ <;> rcases omea with _ | a <;> rfl
  · rcases odc with _ | ⟨⟨_ | ⟨⟨_ | d1⟩⟩, _ | ⟨⟨_ | d2⟩⟩⟩⟩ <;>
      rcases dc with _ | ⟨⟨_ | f, _ | g⟩⟩ <;> rcases omea with _ | a <;> rfl

/-- The hook and its target-keeping companion describe the same run: the hook
returns exactly when the companion did not fault, with the companion's target,
and faults exactly when the companion did. -/
theorem getFunctionEventInvokeConfig_written (rm : resourceManager)
    (ko : svcapitypes.Alias) :
    (∀ r trace, getFunctionEventInvokeConfig rm ko = .returned r trace →
      (getFunctionEventInvokeConfigWritten rm ko).faulted = false ∧
        (getFunctionEventInvokeConfigWritten rm ko).ko = r.ko) ∧
    (∀ trace, getFunctionEventInvokeConfig rm ko = .panicked trace →
      (getFunctionEventInvokeConfigWritten rm ko).faulted = true) := by
  cases hresp : rm.sdkapi.GetFunctionEventInvokeConfigWithContext
      { FunctionName := ko.Spec.FunctionName, Qualifier := ko.Spec.Name } with
  | error e =>
    cases hnf : eventInvokeConfigNotFound e with
    | true =>
      constructor
      · intro r trace h
        simp only [getFunctionEventInvokeConfig, hresp, hnf, if_true,
          Outcome.returned.injEq] at h
        obtain ⟨hr, -⟩ := h
        subst hr
        simp [getFunctionEventInvokeConfigWritten, hresp, hnf]
      · intro trace h
        simp [getFunctionEventInvokeConfig, hresp, hnf] at h
    | false =>
      constructor
      · intro r trace h
        simp only [getFunctionEventInvokeConfig, hresp, hnf, Bool.false_eq_true, if_false,
          Outcome.returned.injEq] at h
        obtain ⟨hr, -⟩ := h
        subst hr
        simp [getFunctionEventInvokeConfigWritten, hresp, hnf]
      · intro trace h
        simp [getFunctionEventInvokeConfig, hresp, hnf] at h
  | ok out =>
    have hw : getFunctionEventInvokeConfigWritten rm ko =
        normalizeEventInvokeConfigWritten out ko := by
      simp only [getFunctionEventInvokeConfigWritten, hresp]
    rw [hw, getFunctionEventInvokeConfig_of_ok rm ko out hresp,
      normalizeEventInvokeConfig_eq_written out ko]
    cases hfault : (normalizeEventInvokeConfigWritten out ko).faulted with
    | true =>
      constructor
      · intro r trace h
        simp at h
      · intro trace _
        rfl
    | false =>
      constructor
      · intro r trace h
        simp only [Bool.false_eq_true, if_false, Outcome.returned.injEq] at h
        obtain ⟨hr, -⟩ := h
        subst hr
        exact ⟨rfl, rfl⟩
      · intro trace h
        simp at h

/-- Claim C15: on every run of the event-invoke reader, returning or faulting,
the target as the reader leaves it differs from the one it was given at most in
`Spec.FunctionEventInvokeConfig`: `FunctionName`, `Name` and the
provisioned-concurrency block are those of the input. The
provisioned-concurrency reader always returns, and its target differs from the
one it was given at most in `Spec.ProvisionedConcurrencyConfig`. -/
theorem readers_frame (rm : resourceManager) (ko : svcapitypes.Alias) :
    ((getFunctionEventInvokeConfigWritten rm ko).ko =
      { Spec :=
        { FunctionEventInvokeConfig :=
            (getFunctionEventInvokeConfigWritten rm ko).ko.Spec.FunctionEventInvokeConfig
          FunctionName := ko.Spec.FunctionName
          Name := ko.Spec.Name
          ProvisionedConcurrencyConfig := ko.Spec.ProvisionedConcurrencyConfig } }) ∧
    (∀ r trace, getFunctionEventInvokeConfig rm ko = .returned r trace →
      (getFunctionEventInvokeConfigWritten rm ko).faulted = false ∧
        (getFunctionEventInvokeConfigWritten rm ko).ko = r.ko) ∧
    (∀ trace, getFunctionEventInvokeConfig rm ko = .panicked trace →
      (getFunctionEventInvokeConfigWritten rm ko).faulted = true) ∧
    (∀ r trace, getFunctionEventInvokeConfig rm ko = .returned r trace →
      r.ko = { Spec :=
        { FunctionEventInvokeConfig := r.ko.Spec.FunctionEventInvokeConfig
          FunctionName := ko.Spec.FunctionName
          Name := ko.Spec.Name
          ProvisionedConcurrencyConfig := ko.Spec.ProvisionedConcurrencyConfig } }) ∧
    (∃ r trace, setProvisionedConcurrencyConfig rm ko = .returned r trace ∧
      r.ko = { Spec :=
        { FunctionEventInvokeConfig := ko.Spec.FunctionEventInvokeConfig
          FunctionName := ko.Spec.FunctionName
          Name := ko.Spec.Name
          ProvisionedConcurrencyConfig := r.ko.Spec.ProvisionedConcurrencyConfig } }) := by
  have hframe : (getFunctionEventInvokeConfigWritten rm ko).ko =
      { Spec :=
        { FunctionEventInvokeConfig :=
            (getFunctionEventInvokeConfigWritten rm ko).ko.Spec.FunctionEventInvokeConfig
          FunctionName := ko.Spec.FunctionName
          Name := ko.Spec.Name
          ProvisionedConcurrencyConfig := ko.Spec.ProvisionedConcurrencyConfig } } := by
    cases hresp : rm.sdkapi.GetFunctionEventInvokeConfigWithContext
        { FunctionName := ko.Spec.FunctionName, Qualifier := ko.Spec.Name } with
    | error e =>
      cases hnf : eventInvokeConfigNotFound e <;>
        simp [getFunctionEventInvokeConfigWritten, hresp, hnf]
    | ok out =>
      have hw : getFunctionEventInvokeConfigWritten rm ko =
          normalizeEventInvokeConfigWritten out ko := by
        simp only [getFunctionEventInvokeConfigWritten, hresp]
      rw [hw]
      exact normalizeEventInvokeConfigWritten_frame out ko
  obtain ⟨hret, hfault⟩ := getFunctionEventInvokeConfig_written rm ko
  refine ⟨hframe, hret, hfault, ?_, ?_⟩
  · intro r trace h
    obtain ⟨hf, hn, hpc⟩ := getFunctionEventInvokeConfig_frame rm ko r trace h
    obtain ⟨e, ⟨⟨a, b, c, d⟩⟩⟩ := r
    simp only at hf hn hpc
    simp only [hf, hn, hpc]
  · obtain ⟨r, trace, h, hko⟩ := setProvisionedConcurrencyConfig_frame rm ko
    exact ⟨r, trace, h, hko⟩

/-- Claim C15 at a concrete input, a run that faults after it has written: the
response reports both destinations and the target has an `OnFailure` member but
no `OnSuccess`. Line 178 writes the `OnFailure` destination, line 183 faults,
and the target at that point differs from the input only inside the event-invoke
block. -/
theorem readers_frame_witness :
    getFunctionEventInvokeConfig bothDestinationsManager
        (liveAlias (some (failureOnlyBlock (some "arn:topic:old")))
          (some { ProvisionedConcurrentExecutions := some 5 })) =
      .panicked (eventInvokeReadTrace none) ∧
    getFunctionEventInvokeConfigWritten bothDestinationsManager
        (liveAlias (some (failureOnlyBlock (some "arn:topic:old")))
          (some { ProvisionedConcurrentExecutions := some 5 })) =
      { ko := liveAlias (some (failureOnlyBlock (some "arn:topic:dead-letter")))
          (some { ProvisionedConcurrentExecutions := some 5 })
        faulted := true } ∧
    (getFunctionEventInvokeConfigWritten bothDestinationsManager
        (liveAlias (some (failureOnlyBlock (some "arn:topic:old")))
          (some { ProvisionedConcurrentExecutions := some 5 }))).faulted = true :=
  ⟨rfl, rfl,
    (readers_frame bothDestinationsManager
      (liveAlias (some (failureOnlyBlock (some "arn:topic:old")))
        (some { ProvisionedConcurrentExecutions := some 5 }))).2.2.1
      (eventInvokeReadTrace none) rfl⟩

/-- Claim C16, as the code has it: when the target's event-invoke block is
non-nil and, for each destination the response reports, the target's
`DestinationConfig` and its member for that destination are non-nil, the reader
completes without a nil-dereference fault after a successful read and returns no
error. -/
theorem getFunctionEventInvokeConfig_no_fault (rm : resourceManager)
    (ko : svcapitypes.Alias) (eic0 : svcapitypes.PutFunctionEventInvokeConfigInput)
    (out : svcsdk.GetFunctionEventInvokeConfigOutput)
    (htarget : ko.Spec.FunctionEventInvokeConfig = some eic0)
    (hread : rm.sdkapi.GetFunctionEventInvokeConfigWithContext
      { FunctionName := ko.Spec.FunctionName, Qualifier := ko.Spec.Name } = .ok out)
    (hfailure : ∀ odc onFailure d, out.DestinationConfig = some odc →
      odc.OnFailure = some onFailure → onFailure.Destination = some d →
      ∃ dc0 f0, eic0.DestinationConfig = some dc0 ∧ dc0.OnFailure = some f0)
    (hsuccess : ∀ odc onSuccess d, out.DestinationConfig = some odc →
      odc.OnSuccess = some onSuccess → onSuccess.Destination = some d →
      ∃ dc0 s0, eic0.DestinationConfig = some dc0 ∧ dc0.OnSuccess = some s0) :
    ∃ r trace, getFunctionEventInvokeConfig rm ko = .returned r trace ∧ r.err = none := by
  rw [getFunctionEventInvokeConfig_of_ok rm ko out hread]
  have hn : ∃ ko1, normalizeEventInvokeConfig out ko = some ko1 := by
    obtain ⟨⟨eic, fn, nm, pc⟩⟩ := ko
    obtain ⟨odc, arn, omea, omra⟩ := out
    obtain ⟨dc, mea, mra⟩ := eic0
    simp only at htarget
    subst htarget
    rcases odc with _ | ⟨⟨onf, ons⟩⟩
    · rcases omea with _ | a <;> exact ⟨_, rfl⟩
    · have hF : ∀ d, onf = some { Destination := some d } →
          ∃ dc0 f0, dc = some dc0 ∧ dc0.OnFailure = some f0 :=
        fun d h => hfailure { OnFailure := onf, OnSuccess := ons } { Destination := some d } d
          rfl h rfl
      have hS : ∀ d, ons = some { Destination := some d } →
          ∃ dc0 s0, dc = some dc0 ∧ dc0.OnSuccess = some s0 :=
        fun d h => hsuccess { OnFailure := onf, OnSuccess := ons } { Destination := some d } d
          rfl h rfl
      clear hfailure hsuccess hread
      rcases onf with _ | ⟨⟨_ | d1⟩⟩ <;> rcases ons with _ | ⟨⟨_ | d2⟩⟩ <;>
        rcases dc with _ | ⟨⟨_ | f, _ | g⟩⟩ <;> rcases omea with _ | a <;>
        simp at hF hS <;> exact ⟨_, rfl⟩
  obtain ⟨ko1, hko1⟩ := hn
  rw [hko1]
  exact ⟨_, _, rfl, rfl⟩

/-- Claim C16 as amended, at a concrete input: the response reports an
`OnFailure` destination and the target has an `OnFailure` member. -/
theorem getFunctionEventInvokeConfig_no_fault_witness :
    ∃ r trace, getFunctionEventInvokeConfig deadLetterManager
        (liveAlias (some (failureOnlyBlock none)) none) = .returned r trace ∧ r.err = none :=
  getFunctionEventInvokeConfig_no_fault deadLetterManager
    (liveAlias (some (failureOnlyBlock none)) none) (failureOnlyBlock none)
    deadLetterRetryResponse rfl rfl
    (fun _ _ _ _ _ _ => ⟨_, _, rfl, rfl⟩)
    (fun odc onSuccess d h1 h2 _ => by
      cases h1
      cases h2)

/-- Claim C16 fails as stated: on a target whose event-invoke block is non-nil
but has no `DestinationConfig`, and a successful response that reports an
`OnFailure` destination, the reader faults on the nil `DestinationConfig` at
line 178, after the read was issued and recorded. -/
theorem getFunctionEventInvokeConfig_faults_on_nil_destinations :
    getFunctionEventInvokeConfig deadLetterManager (liveAlias (some retryOnlyBlock) none) =
      .panicked (eventInvokeReadTrace none) := by
  rfl

/-- Claim C17: with `FunctionName`, `Name` and a count `n` present,
`updateProvisionedConcurrency` issues an upsert carrying `n`; and on any target,
a `setProvisionedConcurrencyConfig` whose read returns a requested count equal
to the upserted one returns no error and leaves a block whose count is `n`, the
desired block. -/
theorem provisionedConcurrency_round_trip (rm : resourceManager) (desired : resource)
    (ko : svcapitypes.Alias) (functionName name : String)
    (pc : svcapitypes.PutProvisionedConcurrencyConfigInput) (n : Int)
    (out : svcsdk.GetProvisionedConcurrencyConfigOutput)
    (hf : desired.ko.Spec.FunctionName = some functionName)
    (hn : desired.ko.Spec.Name = some name)
    (hpc : desired.ko.Spec.ProvisionedConcurrencyConfig = some pc)
    (hcount : pc.ProvisionedConcurrentExecutions = some n)
    (hread : rm.sdkapi.GetProvisionedConcurrencyConfigWithContext
      { FunctionName := ko.Spec.FunctionName, Qualifier := ko.Spec.Name } = .ok out)
    (hreq : out.RequestedProvisionedConcurrentExecutions = some n) :
    (updateProvisionedConcurrency rm desired).calls =
        [Call.PutProvisionedConcurrencyConfig
          { FunctionName := some functionName
            ProvisionedConcurrentExecutions := some n
            Qualifier := some name }] ∧
      ∃ r trace, setProvisionedConcurrencyConfig rm ko = .returned r trace ∧
        r.err = none ∧
        r.ko.Spec.ProvisionedConcurrencyConfig =
          some { ProvisionedConcurrentExecutions := some n } ∧
        r.ko.Spec.ProvisionedConcurrencyConfig = desired.ko.Spec.ProvisionedConcurrencyConfig := by
  constructor
  · rw [updateProvisionedConcurrency_put_eq rm desired functionName name pc n hf hn hpc hcount]
    simp [Outcome.calls, Outcome.trace, Outcome.callsOf]
  · obtain ⟨count⟩ := pc
    simp only at hcount
    subst hcount
    refine ⟨{ err := none
              ko := { Spec :=
                { FunctionEventInvokeConfig := ko.Spec.FunctionEventInvokeConfig
                  FunctionName := ko.Spec.FunctionName
                  Name := ko.Spec.Name
                  ProvisionedConcurrencyConfig :=
                    some { ProvisionedConcurrentExecutions := some n } } } },
      [Event.apiCall (.GetProvisionedConcurrencyConfig
        { FunctionName := ko.Spec.FunctionName, Qualifier := ko.Spec.Name }),
       Event.RecordAPICall "GET" "GetProvisionedConcurrencyConfig" none], ?_, rfl, rfl, ?_⟩
    · simp [setProvisionedConcurrencyConfig, hread, hreq, errOf]
    · simp [hpc]

/-- Claim C17 at a concrete input: the scenario with a count of 5, read back on a
target that held nothing. -/
theorem provisionedConcurrency_round_trip_witness :
    (updateProvisionedConcurrency
        (concurrencyManager (concurrencyResponse (some 5) (some 0) (some 0)))
        ⟨liveAlias none (some { ProvisionedConcurrentExecutions := some 5 })⟩).calls =
      [Call.PutProvisionedConcurrencyConfig
        { FunctionName := some "orders"
          ProvisionedConcurrentExecutions := some 5
          Qualifier := some "live" }] ∧
    ∃ r trace,
      setProvisionedConcurrencyConfig
          (concurrencyManager (concurrencyResponse (some 5) (some 0) (some 0)))
          (liveAlias none none) = .returned r trace ∧
      r.err = none ∧
      r.ko.Spec.ProvisionedConcurrencyConfig =
        some { ProvisionedConcurrentExecutions := some 5 } ∧
      r.ko.Spec.ProvisionedConcurrencyConfig =
        (liveAlias none
          (some { ProvisionedConcurrentExecutions := some 5 })).Spec.ProvisionedConcurrencyConfig :=
  provisionedConcurrency_round_trip
    (concurrencyManager (concurrencyResponse (some 5) (some 0) (some 0)))
    ⟨liveAlias none (some { ProvisionedConcurrentExecutions := some 5 })⟩
    (liveAlias none none) "orders" "live" { ProvisionedConcurrentExecutions := some 5 } 5
    (concurrencyResponse (some 5) (some 0) (some 0)) rfl rfl rfl rfl rfl rfl

/-- Claim C18, as the code has it: when the target's event-invoke block is
non-nil and the reader returns after a successful read, the target's
`DestinationConfig` is nil afterwards exactly when the response's
`DestinationConfig` is nil or the target's was nil before the read. -/
theorem getFunctionEventInvokeConfig_destinations_nil_iff (rm : resourceManager)
    (ko : svcapitypes.Alias) (eic0 : svcapitypes.PutFunctionEventInvokeConfigInput)
    (out : svcsdk.GetFunctionEventInvokeConfigOutput) (r : ReadResult) (trace : List Event)
    (htarget : ko.Spec.FunctionEventInvokeConfig = some eic0)
    (hread : rm.sdkapi.GetFunctionEventInvokeConfigWithContext
      { FunctionName := ko.Spec.FunctionName, Qualifier := ko.Spec.Name } = .ok out)
    (hret : getFunctionEventInvokeConfig rm ko = .returned r trace) :
    r.err = none ∧
      ∃ eic1, r.ko.Spec.FunctionEventInvokeConfig = some eic1 ∧
        (eic1.DestinationConfig = none ↔
          out.DestinationConfig = none ∨ eic0.DestinationConfig = none) := by
  rw [getFunctionEventInvokeConfig_of_ok rm ko out hread] at hret
  cases hn : normalizeEventInvokeConfig out ko with
  | none => simp [hn] at hret
  | some ko1 =>
    simp only [hn, Outcome.returned.injEq] at hret
    obtain ⟨hr, -⟩ := hret
    subst hr
    obtain ⟨eic0x, eic1, h0, h1, -, -, -, -, -, hnone, hsome⟩ :=
      normalizeEventInvokeConfig_some out ko ko1 hn
    rw [htarget] at h0
    cases h0
    refine ⟨rfl, eic1, h1, ?_⟩
    by_cases hodc : out.DestinationConfig = none
    · simp [hodc, hnone hodc]
    · simp [hodc, hsome hodc]

/-- Claim C18 as amended, at a concrete input: target and response both have a
`DestinationConfig`. -/
theorem getFunctionEventInvokeConfig_destinations_nil_iff_witness :
    ({ err := none
       ko := liveAlias (some
        { DestinationConfig := some
            { OnFailure := some { Destination := some "arn:topic:dead-letter" }
              OnSuccess := none }
          MaximumEventAgeInSeconds := none
          MaximumRetryAttempts := some 2 }) none } : ReadResult).err = none ∧
      ∃ eic1,
        (liveAlias (some
          { DestinationConfig := some
              { OnFailure := some { Destination := some "arn:topic:dead-letter" }
                OnSuccess := none }
            MaximumEventAgeInSeconds := none
            MaximumRetryAttempts := some 2 }) none).Spec.FunctionEventInvokeConfig =
          some eic1 ∧
        (eic1.DestinationConfig = none ↔
          deadLetterRetryResponse.DestinationConfig = none ∨
            (failureOnlyBlock none).DestinationConfig = none) :=
  getFunctionEventInvokeConfig_destinations_nil_iff deadLetterManager
    (liveAlias (some (failureOnlyBlock none)) none) (failureOnlyBlock none)
    deadLetterRetryResponse
    { err := none
      ko := liveAlias (some
        { DestinationConfig := some
            { OnFailure := some { Destination := some "arn:topic:dead-letter" }
              OnSuccess := none }
          MaximumEventAgeInSeconds := none
          MaximumRetryAttempts := some 2 }) none }
    (eventInvokeReadTrace none) rfl rfl rfl

/-- Claim C18 fails as stated: on a target whose block has no `DestinationConfig`
and a response whose `DestinationConfig` is present with no destination set, the
reader returns no error and the target's `DestinationConfig` is still nil. -/
theorem getFunctionEventInvokeConfig_destinations_stay_nil :
    getFunctionEventInvokeConfig
        ⟨fixedReads (.ok unsetDestinationsResponse) noProvisionedConcurrency⟩
        (liveAlias (some retryOnlyBlock) none) =
      .returned
        { err := none
          ko := liveAlias (some
            { DestinationConfig := none
              MaximumEventAgeInSeconds := some 300
              MaximumRetryAttempts := none }) none }
        (eventInvokeReadTrace none) := by
  rfl

/-- Claim C19: the composite read is not atomic. On a target with both
destinations set, a successful event-invoke read followed by a throttled
provisioned-concurrency read makes `setResourceAdditionalFields` return the
throttling error while the target's event-invoke block has already changed. -/
theorem setResourceAdditionalFields_not_atomic :
    ∃ (rm : resourceManager) (ko : svcapitypes.Alias) (r : ReadResult) (trace : List Event)
      (e : Error),
      setResourceAdditionalFields rm ko = .returned r trace ∧
      rm.sdkapi.GetProvisionedConcurrencyConfigWithContext
        { FunctionName := ko.Spec.FunctionName, Qualifier := ko.Spec.Name } = .error e ∧
      r.err = some e ∧
      r.ko.Spec.FunctionEventInvokeConfig ≠ ko.Spec.FunctionEventInvokeConfig :=
  ⟨deadLetterManager,
   liveAlias (some (bothDestinationsBlock "arn:topic:old" "arn:queue:done")) none,
   { err := some (.aws "TooManyRequestsException" "rate exceeded")
     ko := liveAlias (some
      { DestinationConfig := some
          { OnFailure := some { Destination := some "arn:topic:dead-letter" }
            OnSuccess := some { Destination := some "arn:queue:done" } }
        MaximumEventAgeInSeconds := none
        MaximumRetryAttempts := some 2 }) none },
   eventInvokeReadTrace none ++
    provisionedConcurrencyReadTrace (some (.aws "TooManyRequestsException" "rate exceeded")),
   .aws "TooManyRequestsException" "rate exceeded",
   by decide, rfl, rfl, by decide⟩

/-- Claim C20: every hook records exactly one observation right after each remote
call it issues, carrying the error-or-nil of that call, failed or not, and the
labels `("UPDATE", "SyncEventInvokeConfig")` for the event-invoke put,
`("DELETE", "DeleteProvisionedConcurrency")` or
`("UPDATE", "UpdateProvisionedConcurrency")` for the branch
`updateProvisionedConcurrency` took, `("GET", "GetProvisionedConcurrencyConfig")`
and `("GET", "GetFunctionEventInvokeConfig")` for the two readers; a write hook
that faults for want of `FunctionName` or `Name` issues no call and records
nothing. -/
theorem hooks_record_each_call (rm : resourceManager) (r : resource)
    (ko : svcapitypes.Alias) :
    (∀ functionName name, r.ko.Spec.FunctionName = some functionName →
      r.ko.Spec.Name = some name →
      ∃ input, (syncEventInvokeConfig rm r).trace =
        [Event.apiCall (.PutFunctionEventInvokeConfig input),
         Event.RecordAPICall "UPDATE" "SyncEventInvokeConfig"
          (rm.sdkapi.PutFunctionEventInvokeConfigWithContext input)]) ∧
    (∀ functionName name, r.ko.Spec.FunctionName = some functionName →
      r.ko.Spec.Name = some name → provisionedConcurrencyRemoved r.ko.Spec = true →
      ∃ input, (updateProvisionedConcurrency rm r).trace =
        [Event.apiCall (.DeleteProvisionedConcurrencyConfig input),
         Event.RecordAPICall "DELETE" "DeleteProvisionedConcurrency"
          (rm.sdkapi.DeleteProvisionedConcurrencyConfigWithContext input)]) ∧
    (∀ functionName name, r.ko.Spec.FunctionName = some functionName →
      r.ko.Spec.Name = some name → provisionedConcurrencyRemoved r.ko.Spec = false →
      ∃ input, (updateProvisionedConcurrency rm r).trace =
        [Event.apiCall (.PutProvisionedConcurrencyConfig input),
         Event.RecordAPICall "UPDATE" "UpdateProvisionedConcurrency"
          (rm.sdkapi.PutProvisionedConcurrencyConfigWithContext input)]) ∧
    (r.ko.Spec.FunctionName = none ∨ r.ko.Spec.Name = none →
      (syncEventInvokeConfig rm r).trace = [] ∧
        (updateProvisionedConcurrency rm r).trace = []) ∧
    (∃ input, (setProvisionedConcurrencyConfig rm ko).trace =
      [Event.apiCall (.GetProvisionedConcurrencyConfig input),
       Event.RecordAPICall "GET" "GetProvisionedConcurrencyConfig"
        (errOf (rm.sdkapi.GetProvisionedConcurrencyConfigWithContext input))]) ∧
    (∃ input, (getFunctionEventInvokeConfig rm ko).trace =
      [Event.apiCall (.GetFunctionEventInvokeConfig input),
       Event.RecordAPICall "GET" "GetFunctionEventInvokeConfig"
        (errOf (rm.sdkapi.GetFunctionEventInvokeConfigWithContext input))]) := by
  refine ⟨?_, ?_, ?_, ?_, ?_, ?_⟩
  · intro functionName name hf hn
    refine ⟨syncEventInvokeConfigInput functionName name r.ko.Spec, ?_⟩
    rw [syncEventInvokeConfig_eq rm r functionName name hf hn]
    rfl
  · intro functionName name hf hn hrem
    refine ⟨{ FunctionName := some functionName, Qualifier := some name }, ?_⟩
    rw [updateProvisionedConcurrency_delete_eq rm r functionName name hf hn hrem]
    rfl
  · intro functionName name hf hn hrem
    rcases provisionedConcurrencyRemoved_or_count r.ko.Spec with h | ⟨pc, n, hpc, hcount⟩
    · rw [h] at hrem
      cases hrem
    · refine ⟨{ FunctionName := some functionName
                ProvisionedConcurrentExecutions := some n
                Qualifier := some name }, ?_⟩
      rw [updateProvisionedConcurrency_put_eq rm r functionName name pc n hf hn hpc hcount]
      rfl
  · intro h
    obtain ⟨h1, h2⟩ := write_hooks_fault_without_key rm r h
    rw [h1, h2]
    exact ⟨rfl, rfl⟩
  · exact ⟨_, setProvisionedConcurrencyConfig_trace rm ko⟩
  · exact ⟨_, getFunctionEventInvokeConfig_trace rm ko⟩

/-- Claim C20 at a concrete input: a delete that fails with a throttling error is
recorded with that error. -/
theorem hooks_record_each_call_witness :
    ∃ input,
      (updateProvisionedConcurrency
        ⟨failingWrites (.aws "TooManyRequestsException" "rate exceeded")⟩
        ⟨liveAlias none none⟩).trace =
      [Event.apiCall (.DeleteProvisionedConcurrencyConfig input),
       Event.RecordAPICall "DELETE" "DeleteProvisionedConcurrency"
        ((failingWrites (.aws "TooManyRequestsException"
          "rate exceeded")).DeleteProvisionedConcurrencyConfigWithContext input)] :=
  (hooks_record_each_call ⟨failingWrites (.aws "TooManyRequestsException" "rate exceeded")⟩
    ⟨liveAlias none none⟩ (liveAlias none none)).2.1 "orders" "live" rfl rfl rfl

end LambdaController
